import Mathlib

/-!
Shallow embedding of the hyperliquid-nike-rocket-api execution core
(src/order_utils.py, src/hosted_trading_loop.py, src/position_monitor.py,
src/follower_endpoints.py) and proofs about the frozen claims.

Conventions:
* Python floats are modelled as rationals (exact arithmetic).
* Fallible exchange / database calls are modelled as oracle inputs of type
  Except String _ (error carries the exception message).
* Python truthiness on optional numeric fields (None and 0 both falsy) is
  modelled explicitly by pyTruthyQ / pyOrQ.
* Side-effecting code is modelled as pure functions returning a trace
  (a List of effect values) alongside the computed result.
-/

namespace NikeRocket

/-- Lower-case a list of characters (models Python str.lower for the
ASCII error messages manipulated by the code). -/
def lowerChars (l : List Char) : List Char := l.map Char.toLower

/-- Does list `h` start with list `n`? -/
def startsWithL : List Char → List Char → Bool
  | _, [] => true
  | [], _ :: _ => false
  | c :: h, d :: n => c == d && startsWithL h n

/-- Substring test on character lists: does `n` occur contiguously in `h`?
Models the Python operator ` in ` on strings. -/
def containsSub : List Char → List Char → Bool
  | [], n => n.isEmpty
  | c :: h, n => startsWithL (c :: h) n || containsSub h n

/-- `containsStr h n` : does string `n` occur in string `h`? -/
def containsStr (h n : String) : Bool := containsSub h.toList n.toList

/-- Python str.upper on the ASCII identifiers this code manipulates. -/
def upperStr (s : String) : String := String.mk (s.toList.map Char.toUpper)

/-- Python str.lower. -/
def lowerStr (s : String) : String := String.mk (s.toList.map Char.toLower)

/-- Python str.strip. -/
def trimStr (s : String) : String :=
  String.mk (((s.toList.dropWhile Char.isWhitespace).reverse.dropWhile
    Char.isWhitespace).reverse)

/-- Left-to-right non-overlapping replacement of `pat` by `rep`, with
fuel bounded by the source length (Python str.replace). -/
def replaceGo (pat rep : List Char) : ℕ → List Char → List Char
  | 0, src => src
  | _ + 1, [] => []
  | fuel + 1, c :: rest =>
      if startsWithL (c :: rest) pat then
        rep ++ replaceGo pat rep fuel ((c :: rest).drop pat.length)
      else c :: replaceGo pat rep fuel rest

/-- Python str.replace (for a non-empty pattern). -/
def replaceStr (s pat rep : String) : String :=
  if pat.isEmpty then s
  else String.mk (replaceGo pat.toList rep.toList s.toList.length s.toList)

/-- Python s.split(sep)[0] for a one-character separator. -/
def takeBefore (sep : Char) (s : String) : String :=
  String.mk (s.toList.takeWhile (fun c => c != sep))

/-- Python abs() on a rational. -/
def pyAbs (q : ℚ) : ℚ := if q < 0 then -q else q

lemma pyAbs_eq_abs (q : ℚ) : pyAbs q = |q| := by
  unfold pyAbs
  by_cases h : q < 0
  · simp [h, abs_of_neg h]
  · simp [h, abs_of_nonneg (not_lt.mp h)]

/-- Python truthiness of an optional rational (None and 0 are falsy). -/
def pyTruthyQ : Option ℚ → Bool
  | none => false
  | some v => v != 0

/-- Python `a or b` on optional rationals (falls through on None or 0). -/
def pyOrQ (a b : Option ℚ) : Option ℚ := if pyTruthyQ a then a else b

/-- Python truthiness of an optional natural (None and 0 are falsy). -/
def pyTruthyN : Option ℕ → Bool
  | none => false
  | some v => v != 0

/-- Python truthiness of an optional string (None and "" are falsy). -/
def pyTruthyS : Option String → Bool
  | none => false
  | some s => !s.isEmpty

/-!
## src/order_utils.py — retry skeleton shared by the three placement helpers

Source constants (order_utils.py lines 30-32):
MAX_RETRIES = 3, INITIAL_BACKOFF = 1.0 s, MAX_BACKOFF = 8.0 s.
-/

def MAX_RETRIES : ℕ := 3

def INITIAL_BACKOFF : ℚ := 1

def MAX_BACKOFF : ℚ := 8

/-- Outcome of a `place_*_order_with_retry` call: the returned order dict
(or None after exhaustion), the number of attempts actually made, the
backoff sleeps performed (in seconds, in order), and the accumulated
per-attempt error log (`attempts_log` in the source). -/
structure RetryResult (α : Type) where
  result : Option α
  attempts : ℕ
  sleeps : List ℚ
  attemptsLog : List String
  deriving Repr, DecidableEq

/-- One entry of `attempts_log`: "Attempt n: msg[:200]". -/
def attemptMsg (n : ℕ) (msg : String) : String :=
  "Attempt " ++ toString n ++ ": " ++ String.mk (msg.toList.take 200)

/-- The retry loop shared verbatim by place_entry/tp/sl_order_with_retry
(order_utils.py lines 144-203, 240-282, 318-360): `remaining` counts the
attempts still allowed including the current one (`MAX_RETRIES - attempt + 1`);
on failure with attempts remaining the loop sleeps `backoff` seconds and
doubles the backoff capped at MAX_BACKOFF; no sleep follows the final
attempt. -/
def retryGo (outcomes : ℕ → Except String α) :
    (remaining attempt : ℕ) → ℚ → List String → List ℚ → RetryResult α
  | 0, attempt, _, log, sleeps =>
      { result := none, attempts := attempt - 1, sleeps := sleeps, attemptsLog := log }
  | r + 1, attempt, backoff, log, sleeps =>
      match outcomes attempt with
      | .ok v =>
          { result := some v, attempts := attempt, sleeps := sleeps, attemptsLog := log }
      | .error e =>
          let log := log ++ [attemptMsg attempt e]
          if r = 0 then
            { result := none, attempts := attempt, sleeps := sleeps, attemptsLog := log }
          else
            retryGo outcomes r (attempt + 1) (min (backoff * 2) MAX_BACKOFF) log
              (sleeps ++ [backoff])

/-- Entry point of the shared retry loop: attempts start at 1 with
INITIAL_BACKOFF, up to MAX_RETRIES attempts. -/
def retryLoop (outcomes : ℕ → Except String α) : RetryResult α :=
  retryGo outcomes MAX_RETRIES 1 INITIAL_BACKOFF [] []

/-- Raw Hyperliquid order response, as probed by the source
(`result["status"]`, `response.data.statuses[0]` with keys
filled / resting / error). -/
inductive HLResp where
  | okFilled (oid : String) (avgPx totalSz : ℚ)
  | okResting (oid : String)
  | okError (msg : String)
  | okOther
  | notOk (text : String)
  deriving Repr, DecidableEq

/-- The dict returned by place_entry_order_with_retry on success. -/
structure EntryFill where
  id : String
  avgPx : Option ℚ
  totalSz : Option ℚ
  deriving Repr, DecidableEq

/-- Response parsing of place_entry_order_with_retry (order_utils.py
lines 157-191): filled and resting (and unknown-but-ok) responses
succeed, an ok-status error entry or a non-ok status raises (= one
failed attempt). -/
def parseEntryResp : HLResp → Except String EntryFill
  | .okFilled oid avgPx totalSz => .ok { id := oid, avgPx := some avgPx, totalSz := some totalSz }
  | .okResting oid => .ok { id := oid, avgPx := none, totalSz := none }
  | .okError m => .error ("HL order error: " ++ m)
  | .okOther => .ok { id := "unknown", avgPx := none, totalSz := none }
  | .notOk t => .error ("HL order failed: " ++ t)

/-- Response parsing of place_tp_order_with_retry (order_utils.py lines
254-271): only a resting entry carries an oid; ok with other statuses
returns id "unknown"; error entry or non-ok status raises. -/
def parseTpResp : HLResp → Except String String
  | .okResting oid => .ok oid
  | .okError m => .error ("HL TP error: " ++ m)
  | .okFilled _ _ _ => .ok "unknown"
  | .okOther => .ok "unknown"
  | .notOk t => .error ("HL TP failed: " ++ t)

/-- Response parsing of place_sl_order_with_retry (order_utils.py lines
332-349), same shape as the TP parser. -/
def parseSlResp : HLResp → Except String String
  | .okResting oid => .ok oid
  | .okError m => .error ("HL SL error: " ++ m)
  | .okFilled _ _ _ => .ok "unknown"
  | .okOther => .ok "unknown"
  | .notOk t => .error ("HL SL failed: " ++ t)

/-- place_entry_order_with_retry (order_utils.py lines 130-220), with the
exchange modelled as a map from attempt number to raw response. -/
def placeEntryOrderWithRetry (responses : ℕ → HLResp) : RetryResult EntryFill :=
  retryLoop (fun n => parseEntryResp (responses n))

/-- place_tp_order_with_retry (order_utils.py lines 223-298). -/
def placeTpOrderWithRetry (responses : ℕ → HLResp) : RetryResult String :=
  retryLoop (fun n => parseTpResp (responses n))

/-- place_sl_order_with_retry (order_utils.py lines 301-376). -/
def placeSlOrderWithRetry (responses : ℕ → HLResp) : RetryResult String :=
  retryLoop (fun n => parseSlResp (responses n))

/-!
## src/order_utils.py — cancel_order_with_retry (lines 379-436)

Differences from the placement loop: an error whose first 200 characters
(lower-cased) contain "not found" or "already" is treated as success
immediately (idempotent cancel); on exhaustion only the *last* error is
reported (`last_error`), there is no accumulated attempts_log.
-/

/-- The idempotent-cancel test of order_utils.py line 412 applied to
`error_msg = str(e)[:200]`: "not found" or "already" in error_msg.lower(). -/
def isIdempotentCancelErr (e : String) : Bool :=
  let msg := lowerChars (e.toList.take 200)
  containsSub msg "not found".toList || containsSub msg "already".toList

/-- Outcome of cancel_order_with_retry: the returned bool, attempts made,
sleeps performed, and the error reported to the admin notification on
definitive failure (`str(last_error)`, the final attempt's error only). -/
structure CancelResult where
  success : Bool
  attempts : ℕ
  sleeps : List ℚ
  reportedError : Option String
  deriving Repr, DecidableEq

/-- The cancel retry loop (order_utils.py lines 396-420): one attempt
per iteration; idempotent errors short-circuit to success; between failed
attempts sleep `backoff` and double capped at MAX_BACKOFF. -/
def cancelGo (outcomes : ℕ → Except String Unit) :
    (remaining attempt : ℕ) → ℚ → Option String → List ℚ → CancelResult
  | 0, attempt, _, lastErr, sleeps =>
      { success := false, attempts := attempt - 1, sleeps := sleeps, reportedError := lastErr }
  | r + 1, attempt, backoff, _, sleeps =>
      match outcomes attempt with
      | .ok _ =>
          { success := true, attempts := attempt, sleeps := sleeps, reportedError := none }
      | .error e =>
          if isIdempotentCancelErr e then
            { success := true, attempts := attempt, sleeps := sleeps, reportedError := none }
          else if r = 0 then
            { success := false, attempts := attempt, sleeps := sleeps, reportedError := some e }
          else
            cancelGo outcomes r (attempt + 1) (min (backoff * 2) MAX_BACKOFF) (some e)
              (sleeps ++ [backoff])

/-- cancel_order_with_retry (order_utils.py lines 379-436); the exchange
cancel call for each attempt either succeeds (status ok) or yields an
exception message. -/
def cancelOrderWithRetry (outcomes : ℕ → Except String Unit) : CancelResult :=
  cancelGo outcomes MAX_RETRIES 1 INITIAL_BACKOFF none []

/-- Exhaustive description of the placement retry loop: success on attempt
1, 2 or 3, or exhaustion after 3 failed attempts with the full per-attempt
log and backoff sleeps 1 s then 2 s. -/
lemma retryLoop_cases (outcomes : ℕ → Except String α) :
    (∃ v, outcomes 1 = .ok v ∧ retryLoop outcomes =
      { result := some v, attempts := 1, sleeps := [], attemptsLog := [] }) ∨
    (∃ e1 v, outcomes 1 = .error e1 ∧ outcomes 2 = .ok v ∧ retryLoop outcomes =
      { result := some v, attempts := 2, sleeps := [1], attemptsLog := [attemptMsg 1 e1] }) ∨
    (∃ e1 e2 v, outcomes 1 = .error e1 ∧ outcomes 2 = .error e2 ∧ outcomes 3 = .ok v ∧
      retryLoop outcomes =
        { result := some v, attempts := 3, sleeps := [1, 2],
          attemptsLog := [attemptMsg 1 e1, attemptMsg 2 e2] }) ∨
    (∃ e1 e2 e3, outcomes 1 = .error e1 ∧ outcomes 2 = .error e2 ∧ outcomes 3 = .error e3 ∧
      retryLoop outcomes =
        { result := none, attempts := 3, sleeps := [1, 2],
          attemptsLog := [attemptMsg 1 e1, attemptMsg 2 e2, attemptMsg 3 e3] }) := by
  cases h1 : outcomes 1 with
  | ok v =>
      exact Or.inl ⟨v, rfl, by simp [retryLoop, retryGo, MAX_RETRIES, INITIAL_BACKOFF, h1]⟩
  | error e1 =>
      cases h2 : outcomes 2 with
      | ok v =>
          refine Or.inr (Or.inl ⟨e1, v, rfl, rfl, ?_⟩)
          simp [retryLoop, retryGo, MAX_RETRIES, INITIAL_BACKOFF, h1, h2]
      | error e2 =>
          cases h3 : outcomes 3 with
          | ok v =>
              refine Or.inr (Or.inr (Or.inl ⟨e1, e2, v, rfl, rfl, rfl, ?_⟩))
              simp [retryLoop, retryGo, MAX_RETRIES, INITIAL_BACKOFF, MAX_BACKOFF, h1, h2, h3]
              norm_num
          | error e3 =>
              refine Or.inr (Or.inr (Or.inr ⟨e1, e2, e3, rfl, rfl, rfl, ?_⟩))
              simp [retryLoop, retryGo, MAX_RETRIES, INITIAL_BACKOFF, MAX_BACKOFF, h1, h2, h3]
              norm_num

/-- Exhaustive description of the cancel retry loop, including the
idempotent-error short-circuit and the final-error-only report. -/
lemma cancelLoop_cases (outcomes : ℕ → Except String Unit) :
    ((cancelOrderWithRetry outcomes).success = true ∧
      (cancelOrderWithRetry outcomes).reportedError = none ∧
      (cancelOrderWithRetry outcomes).attempts ≤ 3 ∧
      (cancelOrderWithRetry outcomes).sleeps =
        ([1, 2] : List ℚ).take ((cancelOrderWithRetry outcomes).attempts - 1)) ∨
    (∃ e1 e2 e3, outcomes 1 = .error e1 ∧ outcomes 2 = .error e2 ∧ outcomes 3 = .error e3 ∧
      isIdempotentCancelErr e1 = false ∧ isIdempotentCancelErr e2 = false ∧
      isIdempotentCancelErr e3 = false ∧
      cancelOrderWithRetry outcomes =
        { success := false, attempts := 3, sleeps := [1, 2], reportedError := some e3 }) := by
  cases h1 : outcomes 1 with
  | ok v =>
      exact Or.inl (by
        simp [cancelOrderWithRetry, cancelGo, MAX_RETRIES, INITIAL_BACKOFF, h1])
  | error e1 =>
      by_cases hi1 : isIdempotentCancelErr e1
      · exact Or.inl (by
          simp [cancelOrderWithRetry, cancelGo, MAX_RETRIES, INITIAL_BACKOFF, h1, hi1])
      · cases h2 : outcomes 2 with
        | ok v =>
            exact Or.inl (by
              simp [cancelOrderWithRetry, cancelGo, MAX_RETRIES, INITIAL_BACKOFF, h1, hi1, h2])
        | error e2 =>
            by_cases hi2 : isIdempotentCancelErr e2
            · exact Or.inl (by
                simp [cancelOrderWithRetry, cancelGo, MAX_RETRIES, INITIAL_BACKOFF, h1, hi1,
                  h2, hi2])
            · cases h3 : outcomes 3 with
              | ok v =>
                  refine Or.inl (by
                    simp [cancelOrderWithRetry, cancelGo, MAX_RETRIES, INITIAL_BACKOFF,
                      MAX_BACKOFF, h1, hi1, h2, hi2, h3]
                    norm_num)
              | error e3 =>
                  by_cases hi3 : isIdempotentCancelErr e3
                  · refine Or.inl (by
                      simp [cancelOrderWithRetry, cancelGo, MAX_RETRIES, INITIAL_BACKOFF,
                        MAX_BACKOFF, h1, hi1, h2, hi2, h3, hi3]
                      norm_num)
                  · refine Or.inr ⟨e1, e2, e3, rfl, rfl, rfl, by simpa using hi1,
                      by simpa using hi2, by simpa using hi3, ?_⟩
                    simp [cancelOrderWithRetry, cancelGo, MAX_RETRIES, INITIAL_BACKOFF,
                      MAX_BACKOFF, h1, hi1, h2, hi2, h3, hi3]
                    norm_num

/-- The retry policy of §4.3 as it applies to one placement operation:
at most MAX_RETRIES attempts, backoff sleeps 1 s then 2 s strictly between
attempts (never after the final one), and on exhaustion a None result with
one log entry per failed attempt. -/
def retryPolicyHolds (outcomes : ℕ → Except String α) (r : RetryResult α) : Prop :=
  r.attempts ≤ MAX_RETRIES ∧
  r.sleeps = ([1, 2] : List ℚ).take (r.attempts - 1) ∧
  (r.result = none → ∃ e1 e2 e3,
    outcomes 1 = .error e1 ∧ outcomes 2 = .error e2 ∧ outcomes 3 = .error e3 ∧
    r.attempts = MAX_RETRIES ∧ r.sleeps = [1, 2] ∧
    r.attemptsLog = [attemptMsg 1 e1, attemptMsg 2 e2, attemptMsg 3 e3])

lemma retryPolicy_of_retryLoop (outcomes : ℕ → Except String α) :
    retryPolicyHolds outcomes (retryLoop outcomes) := by
  rcases retryLoop_cases outcomes with ⟨v, h1, hr⟩ | ⟨e1, v, h1, h2, hr⟩ |
    ⟨e1, e2, v, h1, h2, h3, hr⟩ | ⟨e1, e2, e3, h1, h2, h3, hr⟩
  · exact ⟨by simp [hr, MAX_RETRIES], by simp [hr], by simp [hr]⟩
  · exact ⟨by simp [hr, MAX_RETRIES], by simp [hr], by simp [hr]⟩
  · exact ⟨by simp [hr, MAX_RETRIES], by simp [hr], by simp [hr]⟩
  · refine ⟨by simp [hr, MAX_RETRIES], by simp [hr], fun _ =>
      ⟨e1, e2, e3, h1, h2, h3, by simp [hr, MAX_RETRIES], by simp [hr], by simp [hr]⟩⟩

/-- Concrete run refuting the cancellation half of the claim: all three
cancel attempts fail with distinct errors, yet the definitive-failure
report carries only the final attempt's error — attempt 1's error is
absent (cancel_order_with_retry keeps only `last_error`, it never
accumulates an attempts log; order_utils.py lines 393-434). -/
def c5CancelOutcomes : ℕ → Except String Unit :=
  fun n => .error ("exchange timeout " ++ toString n)

/-- C5 counterexample: a cancellation that exhausts its 3 attempts reports
only "exchange timeout 3"; the accumulated per-attempt error log promised
by the claim (which would mention attempt 1's "exchange timeout 1") is not
delivered to anyone. -/
theorem c5_cancel_log_counterexample :
    (cancelOrderWithRetry c5CancelOutcomes).success = false ∧
    (cancelOrderWithRetry c5CancelOutcomes).attempts = 3 ∧
    (cancelOrderWithRetry c5CancelOutcomes).reportedError = some "exchange timeout 3" ∧
    containsStr ((cancelOrderWithRetry c5CancelOutcomes).reportedError.getD "")
      "exchange timeout 1" = false := by
  decide

/-- C5 (amended): every placement operation (entry, TP, SL) makes at most
3 attempts with backoff sleeps of 1 s then 2 s (doubling, capped at 8 s)
only between attempts, and on exhaustion returns a definitive failure with
the accumulated per-attempt error log; cancellation obeys the same attempt
bound and backoff but on exhaustion reports only the final attempt's
error. -/
theorem c5_retry_policy (eResp tResp sResp : ℕ → HLResp)
    (cOut : ℕ → Except String Unit) :
    retryPolicyHolds (fun n => parseEntryResp (eResp n)) (placeEntryOrderWithRetry eResp) ∧
    retryPolicyHolds (fun n => parseTpResp (tResp n)) (placeTpOrderWithRetry tResp) ∧
    retryPolicyHolds (fun n => parseSlResp (sResp n)) (placeSlOrderWithRetry sResp) ∧
    ((cancelOrderWithRetry cOut).attempts ≤ MAX_RETRIES ∧
      (cancelOrderWithRetry cOut).sleeps =
        ([1, 2] : List ℚ).take ((cancelOrderWithRetry cOut).attempts - 1) ∧
      ((cancelOrderWithRetry cOut).success = false → ∃ e3, cOut 3 = .error e3 ∧
        (cancelOrderWithRetry cOut).attempts = MAX_RETRIES ∧
        (cancelOrderWithRetry cOut).sleeps = [1, 2] ∧
        (cancelOrderWithRetry cOut).reportedError = some e3)) := by
  refine ⟨retryPolicy_of_retryLoop _, retryPolicy_of_retryLoop _,
    retryPolicy_of_retryLoop _, ?_⟩
  rcases cancelLoop_cases cOut with ⟨hs, _, ha, hsl⟩ | ⟨e1, e2, e3, h1, h2, h3, _, _, _, hr⟩
  · exact ⟨ha, hsl, by simp [hs]⟩
  · exact ⟨by simp [hr, MAX_RETRIES], by simp [hr], fun _ =>
      ⟨e3, h3, by simp [hr, MAX_RETRIES], by simp [hr], by simp [hr]⟩⟩

/-- Witness for c5_retry_policy at a concrete always-failing exchange. -/
theorem c5_retry_policy_witness :
    (placeEntryOrderWithRetry (fun _ => .notOk "down")).result = none ∧
    (placeEntryOrderWithRetry (fun _ => .notOk "down")).sleeps = [1, 2] ∧
    (placeEntryOrderWithRetry (fun _ => .notOk "down")).attemptsLog.length = 3 ∧
    (cancelOrderWithRetry (fun _ => .error "conn reset")).reportedError =
      some "conn reset" := by
  have h := c5_retry_policy (fun _ => .notOk "down") (fun _ => .notOk "down")
    (fun _ => .notOk "down") (fun _ => .error "conn reset")
  obtain ⟨⟨_, _, hfail⟩, _, _, _, _, hcfail⟩ := h
  have hres : (placeEntryOrderWithRetry (fun _ => .notOk "down")).result = none := by decide
  obtain ⟨e1, e2, e3, _, _, _, _, hsl, hlog⟩ := hfail hres
  have hcres : (cancelOrderWithRetry (fun _ => .error "conn reset")).success = false := by
    decide
  obtain ⟨f3, hf3eq, _, _, hrep⟩ := hcfail hcres
  have hf3 : "conn reset" = f3 := by simpa using hf3eq
  exact ⟨hres, hsl, by simp [hlog], by rw [hrep, ← hf3]⟩

/-- C7: if the exchange's cancel call reports the order as not found or
already filled/cancelled (the source's own classification of the raised
error message, order_utils.py line 412), cancel_order_with_retry returns
success immediately: True to the caller, no failure reported, no retries,
no sleeps. Repeating the cancellation therefore keeps returning success. -/
theorem c7_cancel_idempotent (outcomes : ℕ → Except String Unit) (m : String)
    (h1 : outcomes 1 = .error m) (hm : isIdempotentCancelErr m = true) :
    cancelOrderWithRetry outcomes =
      { success := true, attempts := 1, sleeps := [], reportedError := none } := by
  simp [cancelOrderWithRetry, cancelGo, MAX_RETRIES, INITIAL_BACKOFF, h1, hm]

/-- Witness for c7_cancel_idempotent on the message "Order 77 not found". -/
theorem c7_cancel_idempotent_witness :
    cancelOrderWithRetry (fun _ => .error "Order 77 not found") =
      { success := true, attempts := 1, sleeps := [], reportedError := none } :=
  c7_cancel_idempotent (fun _ => .error "Order 77 not found") "Order 77 not found"
    rfl (by decide)

/-!
## src/hosted_trading_loop.py — symbol conversion, rounding, sizing
-/

/-- convert_symbol_to_hl (hosted_trading_loop.py lines 90-104). -/
def convertSymbolToHl (apiSymbol : String) : String :=
  if containsStr apiSymbol "/" then
    upperStr (takeBefore (Char.ofNat 47) apiSymbol)
  else
    replaceStr (replaceStr (replaceStr (upperStr apiSymbol) "PF_" "") "USD" "") "USDT" ""

/-- Python int() truncation toward zero on a rational. -/
def pyInt (q : ℚ) : ℤ := q.num / q.den

/-- Python round(): round half to even (banker's rounding). -/
def pyRound (q : ℚ) : ℤ :=
  let f := ⌊q⌋
  let r := q - f
  if r < 1 / 2 then f
  else if 1 / 2 < r then f + 1
  else if Even f then f else f + 1

/-- round_size (hosted_trading_loop.py lines 137-142): floor to the
asset's szDecimals precision (szDecimals is looked up in the cached asset
metadata, defaulting to 2; here it is passed explicitly). -/
def roundSize (szDecimals : ℕ) (size : ℚ) : ℚ :=
  ⌊size * 10 ^ szDecimals⌋ / 10 ^ szDecimals

/-- round_price (hosted_trading_loop.py lines 144-150): round to 5
significant figures; magnitude is floor(log10 |price|). -/
def roundPrice (price : ℚ) : ℚ :=
  if price = 0 then 0
  else
    let magnitude : ℤ := Int.log 10 (pyAbs price)
    let factor : ℚ := (10 : ℚ) ^ ((5 : ℤ) - 1 - magnitude)
    (pyRound (price * factor) : ℚ) / factor

/-- Position sizing (hosted_trading_loop.py lines 430-440):
risk_amount = equity × risk_pct, risk_per_unit = |entry − stop|,
position_size = risk_amount / risk_per_unit. Leverage is not an input. -/
def positionSizeOf (equity riskPct entryPrice stopLoss : ℚ) : ℚ :=
  (equity * riskPct) / pyAbs (entryPrice - stopLoss)

/-!
## src/hosted_trading_loop.py — get_pending_signals_batched (lines 152-191)

One row of the batched eligibility query, joining follower_users,
signal_deliveries and signals. Timestamps are seconds (ℤ).
-/

structure FetchRow where
  userId : ℕ
  agentActive : Bool
  credentialsSet : Bool
  accessGranted : Bool
  pendingInvoiceId : Option ℕ
  invoiceDueDate : Option ℤ
  acknowledged : Bool
  failed : Bool
  signalCreatedAt : ℤ
  deriving Repr, DecidableEq

/-- The WHERE clause of the batched query (hosted_trading_loop.py lines
178-187): agent_active, credentials_set, access_granted, the billing
disjunction, acknowledged = false, created_at within the last 15 minutes.
There is no condition on the `failed` column. -/
def sqlPendingEligible (now : ℤ) (r : FetchRow) : Bool :=
  r.agentActive && r.credentialsSet && r.accessGranted &&
    (r.pendingInvoiceId.isNone ||
      (match r.invoiceDueDate with
       | none => true
       | some d => decide (now < d))) &&
    !r.acknowledged && decide (now - 15 * 60 < r.signalCreatedAt)

/-- get_pending_signals_batched: the rows satisfying the WHERE clause
(the ORDER BY created_at DESC only permutes the result and is immaterial
to membership). -/
def getPendingSignalsBatched (now : ℤ) (rows : List FetchRow) : List FetchRow :=
  rows.filter (sqlPendingEligible now)

/-- An unresolved billing block: a pending invoice whose due date has
passed (spec vocabulary for the query's billing disjunction). -/
def unresolvedBillingBlock (now : ℤ) (r : FetchRow) : Bool :=
  match r.pendingInvoiceId, r.invoiceDueDate with
  | some _, some d => decide (d ≤ now)
  | some _, none => false
  | none, _ => false

/-- Modelled from the spec: the claimed pending-eligible predicate, which
additionally requires the delivery not to be marked failed ("subscriber
active, credentials configured, access granted with no unresolved billing
block, delivery not yet acknowledged, delivery not marked failed, and
signal age under the 15-minute expiry window"). -/
def claimPendingEligible (now : ℤ) (r : FetchRow) : Bool :=
  r.agentActive && r.credentialsSet && r.accessGranted &&
    !unresolvedBillingBlock now r && !r.acknowledged && !r.failed &&
    decide (now - 15 * 60 < r.signalCreatedAt)

/-- The amended eligibility predicate: the claimed one with the
"not marked failed" conjunct removed. -/
def amendedPendingEligible (now : ℤ) (r : FetchRow) : Bool :=
  r.agentActive && r.credentialsSet && r.accessGranted &&
    !unresolvedBillingBlock now r && !r.acknowledged &&
    decide (now - 15 * 60 < r.signalCreatedAt)

/-- C4 counterexample row: fully active subscriber, no billing block,
fresh signal, delivery NOT acknowledged but marked failed (exactly the
state produced by POST /api/mark-signal-failed, follower_endpoints.py
lines 526-568, which sets failed without acknowledging). -/
def c4Row : FetchRow :=
  { userId := 7, agentActive := true, credentialsSet := true, accessGranted := true,
    pendingInvoiceId := none, invoiceDueDate := none, acknowledged := false,
    failed := true, signalCreatedAt := 0 }

/-- C4 counterexample: the batched fetch returns a delivery that is marked
failed (claimed predicate excludes it) — the query has no condition on the
failed flag. -/
theorem c4_failed_row_fetched_counterexample :
    getPendingSignalsBatched 60 [c4Row] = [c4Row] ∧
    claimPendingEligible 60 c4Row = false := by
  decide

/-- C4 (amended): the batched fetch returns exactly the rows satisfying:
subscriber active, credentials configured, access granted with no
unresolved billing block, delivery not yet acknowledged, and signal age
under the 15-minute window — with no condition on the failed flag. -/
theorem c4_fetch_exact (now : ℤ) (rows : List FetchRow) (r : FetchRow) :
    (r ∈ getPendingSignalsBatched now rows ↔
      r ∈ rows ∧ amendedPendingEligible now r = true) ∧
    sqlPendingEligible now r = amendedPendingEligible now r := by
  have hpred : ∀ x : FetchRow, sqlPendingEligible now x = amendedPendingEligible now x := by
    intro x
    unfold sqlPendingEligible amendedPendingEligible unresolvedBillingBlock
    rcases hp : x.pendingInvoiceId with _ | p <;> rcases hd : x.invoiceDueDate with _ | d <;>
      simp [hp, hd]
    by_cases h : d ≤ now
    · simp [h, not_lt.mpr h]
    · simp [h, not_le.mp h]
  refine ⟨?_, hpred r⟩
  rw [getPendingSignalsBatched, List.mem_filter, hpred r]

/-- Witness for c4_fetch_exact at a concrete row and instant. -/
theorem c4_fetch_exact_witness :
    c4Row ∈ getPendingSignalsBatched 60 [c4Row] ∧
    sqlPendingEligible 60 c4Row = amendedPendingEligible 60 c4Row := by
  have h := c4_fetch_exact 60 [c4Row] c4Row
  exact ⟨h.1.mpr ⟨List.mem_singleton.mpr rfl, by decide⟩, h.2⟩

/-!
## src/hosted_trading_loop.py — pre-trade safety gate
(check_any_open_positions_or_orders, lines 270-345)
-/

/-- An exchange position entry from info.user_state assetPositions. -/
structure HLPosition where
  coin : String
  szi : ℚ
  deriving Repr, DecidableEq

/-- An exchange open-order entry from info.open_orders. -/
structure HLOrder where
  oid : String
  coin : String
  deriving Repr, DecidableEq

/-- Results of the gate's CHECK 0 database lookups. -/
structure GateDb where
  signalIntId : Option ℕ
  existingPositionCount : ℕ
  recentTradeCount : ℕ
  deriving Repr, DecidableEq

/-- CHECK 1 and CHECK 2 of the gate (lines 311-340): each is wrapped in
its own try/except; an error in either check is logged and skipped. -/
def gateExchangeChecks (posq : Except Unit (List HLPosition))
    (ordq : Except Unit (List HLOrder)) : Bool × Option String :=
  let ordersCheck : Bool × Option String :=
    match ordq with
    | .ok os =>
        if os.length > 0 then
          (true, some ("Open orders exist: " ++ toString os.length ++ " orders"))
        else (false, none)
    | .error _ => (false, none)
  match posq with
  | .ok ps =>
      match ps.find? (fun p => decide (0 < pyAbs p.szi)) with
      | some p =>
          (true, some ("Open position exists: " ++ p.coin ++ " " ++
            (if 0 < p.szi then "LONG" else "SHORT")))
      | none => ordersCheck
  | .error _ => ordersCheck

/-- check_any_open_positions_or_orders (lines 270-345). CHECK 0 (the
duplicate-suppression database lookups) runs only when user_id and
signal_id are truthy; a database exception propagates to the outer
except which returns (False, None) — fail-open. -/
def checkAnyOpenPositionsOrOrders (userId : ℕ) (signalId : Option String)
    (dbq : Except Unit GateDb) (posq : Except Unit (List HLPosition))
    (ordq : Except Unit (List HLOrder)) : Bool × Option String :=
  if userId != 0 && pyTruthyS signalId then
    match dbq with
    | .error _ => (false, none)
    | .ok g =>
        match g.signalIntId with
        | some _ =>
            if g.existingPositionCount > 0 then
              (true, some "Position already exists for this signal")
            else if g.recentTradeCount > 0 then
              (true, some "Trade recently closed for this signal")
            else gateExchangeChecks posq ordq
        | none => gateExchangeChecks posq ordq
  else gateExchangeChecks posq ordq

/-!
## src/hosted_trading_loop.py — execute_trade (lines 347-585) and
_emergency_close_position (lines 587-646)

Side effects are recorded as a trace of `Eff` values in program order.
-/

def DEFAULT_RISK_PERCENTAGE : ℚ := 2 / 100

/-- SLIPPAGE_BPS (line 86), at its default environment value 50. -/
def SLIPPAGE_BPS : ℕ := 50

structure TradeUser where
  id : ℕ
  apiKey : String
  email : String
  deriving Repr, DecidableEq

structure TradeSignal where
  deliveryId : Option ℕ
  signalId : Option String
  action : String
  symbol : String
  entryPrice : ℚ
  stopLoss : Option ℚ
  takeProfit : Option ℚ
  leverage : Option ℚ
  riskPct : Option ℚ
  deriving Repr, DecidableEq

/-- Oracle for the exchange and store interactions of one execute_trade
call. midPrice is the all_mids value used by the emergency close (0 when
unavailable); closeOk is whether the emergency IOC close returns status
ok; dbInsertOk is whether the open_positions INSERT succeeds. -/
structure ExecOracle where
  credsOk : Bool
  gateDb : Except Unit GateDb
  gatePositions : Except Unit (List HLPosition)
  gateOrders : Except Unit (List HLOrder)
  equity : ℚ
  szDecimals : ℕ
  entryResponses : ℕ → HLResp
  tpResponses : ℕ → HLResp
  slResponses : ℕ → HLResp
  midPrice : ℚ
  closeOk : Bool
  insertSignalDbId : Option ℕ
  dbInsertOk : Bool

inductive Eff where
  | ackDelivery (deliveryId : ℕ)
  | gateQuery
  | setLeverage (lev : ℤ) (coin : String)
  | placeEntry (coin : String) (isBuy : Bool) (qty px : ℚ)
  | placeTp (coin : String) (isBuy : Bool) (qty px : ℚ)
  | placeSl (coin : String) (isBuy : Bool) (qty px : ℚ)
  | cancelOrder (coin oid : String)
  | emergencyCloseBegin (reason : String)
  | emergencyCloseOrder (coin : String) (isBuy : Bool) (qty px : ℚ) (reduceOnly : Bool)
  | alertBracketIncomplete (closeSuccess : Bool)
  | insertOpenPosition (userId : ℕ) (signalDbId : Option ℕ) (entryOid tpOid slOid : String)
      (qty lev entryFill tpPx slPx : ℚ)
  | startBillingCycle (userId : ℕ)
  | notifyInvalidSignal (reason : String)
  | logErrorDb (kind : String)
  deriving Repr, DecidableEq

/-- Python int(s) succeeds on a plain digit string (the orphaned-TP cancel
does int(tp_order['id']) inside a try; a non-numeric id such as "unknown"
raises and the cancel is silently skipped, lines 520-523). -/
def strAllDigits (s : String) : Bool := !s.isEmpty && s.toList.all Char.isDigit

/-- The coin traded: convert_symbol_to_hl of the signal symbol (line 387). -/
def tradeCoin (signal : TradeSignal) : String := convertSymbolToHl signal.symbol

/-- is_buy = action.upper() == 'BUY' (line 463). -/
def tradeIsBuy (signal : TradeSignal) : Bool := upperStr signal.action == "BUY"

/-- The quantity placed: position size rounded down to szDecimals
(lines 440-441). Leverage is not an input. -/
def tradeQuantity (signal : TradeSignal) (o : ExecOracle) : ℚ :=
  roundSize o.szDecimals
    (positionSizeOf o.equity ((signal.riskPct).getD DEFAULT_RISK_PERCENTAGE)
      signal.entryPrice ((signal.stopLoss).getD 0))

/-- _emergency_close_position (lines 587-646): market-like IOC reduce-only
close at 2% slippage off mid when a mid price is available; in every case
a CRITICAL bracket-incomplete alert reporting the close outcome is sent
and an EMERGENCY_CLOSE row is logged. Returns (close_success, effects). -/
def emergencyClosePosition (o : ExecOracle) (coin : String) (isBuyToClose : Bool)
    (qty : ℚ) (reason : String) : Bool × List Eff :=
  if 0 < o.midPrice then
    let limitPx :=
      if isBuyToClose then roundPrice (o.midPrice * (1 + 2 / 100))
      else roundPrice (o.midPrice * (1 - 2 / 100))
    (o.closeOk,
      [.emergencyCloseBegin reason, .emergencyCloseOrder coin isBuyToClose qty limitPx true,
        .alertBracketIncomplete o.closeOk, .logErrorDb "EMERGENCY_CLOSE"])
  else
    (false, [.emergencyCloseBegin reason, .alertBracketIncomplete false,
      .logErrorDb "EMERGENCY_CLOSE"])

/-- The EARLY ACKNOWLEDGMENT step (lines 368-371): acknowledge_signal is
called iff the delivery id is truthy, before anything else. -/
def ackEffsOf (signal : TradeSignal) : List Eff :=
  match signal.deliveryId with
  | some d => if d != 0 then [.ackDelivery d] else []
  | none => []

/-- execute_trade (lines 347-585). The delivery is acknowledged first
(before the safety gate and any order placement); the 3-order bracket is
entry IOC, TP trigger, SL trigger, each through its retry helper; TP/SL
leg failure triggers the emergency close (cancelling the orphaned TP
first in the SL case); the open_positions row is inserted only after all
three legs succeed. -/
def executeTrade (user : TradeUser) (signal : TradeSignal) (o : ExecOracle) :
    Bool × List Eff :=
  let ackEffs : List Eff := ackEffsOf signal
  if !o.credsOk then (false, ackEffs ++ [.logErrorDb "CREDENTIALS_NOT_FOUND"])
  else
    let coin := tradeCoin signal
    let gate := checkAnyOpenPositionsOrOrders user.id signal.signalId
      o.gateDb o.gatePositions o.gateOrders
    let effs0 := ackEffs ++ [.gateQuery]
    if gate.1 then (false, effs0)
    else if o.equity ≤ 0 then (false, effs0)
    else if !pyTruthyQ signal.stopLoss || !pyTruthyQ signal.takeProfit then
      (false, effs0 ++ [.notifyInvalidSignal "missing SL or TP"])
    else
      let entryPrice := signal.entryPrice
      let stopLoss := (signal.stopLoss).getD 0
      let takeProfit := (signal.takeProfit).getD 0
      let leverage := (signal.leverage).getD 5
      if stopLoss ≤ 0 ∨ takeProfit ≤ 0 then
        (false, effs0 ++ [.notifyInvalidSignal "zero or negative SL or TP"])
      else if pyAbs (entryPrice - stopLoss) ≤ 0 then
        (false, effs0 ++ [.notifyInvalidSignal "SL distance zero"])
      else
        let quantity := tradeQuantity signal o
        if quantity ≤ 0 then (false, effs0)
        else
          let isBuy := tradeIsBuy signal
          let effs1 := effs0 ++ [.setLeverage (pyInt leverage) coin]
          let slippage : ℚ := (SLIPPAGE_BPS : ℚ) / 10000
          let entryLimitPrice :=
            roundPrice (entryPrice * (if isBuy then 1 + slippage else 1 - slippage))
          let effs2 := effs1 ++ [.placeEntry coin isBuy quantity entryLimitPrice]
          match (placeEntryOrderWithRetry o.entryResponses).result with
          | none => (false, effs2 ++ [.logErrorDb "ENTRY_ORDER_FAILED"])
          | some fill =>
            let tpPx := roundPrice takeProfit
            let effs3 := effs2 ++ [.placeTp coin (!isBuy) quantity tpPx]
            match (placeTpOrderWithRetry o.tpResponses).result with
            | none =>
                (false, effs3 ++ (emergencyClosePosition o coin (!isBuy) quantity
                  "TP order failed after all retries").2)
            | some tpOid =>
              let slPx := roundPrice stopLoss
              let effs4 := effs3 ++ [.placeSl coin (!isBuy) quantity slPx]
              match (placeSlOrderWithRetry o.slResponses).result with
              | none =>
                  let cancelEffs : List Eff :=
                    if strAllDigits tpOid then [.cancelOrder coin tpOid] else []
                  (false, effs4 ++ cancelEffs ++ (emergencyClosePosition o coin (!isBuy)
                    quantity "SL order failed after all retries").2)
              | some slOid =>
                  let entryFillPrice := (fill.avgPx).getD entryPrice
                  let insertEffs : List Eff :=
                    if o.dbInsertOk then
                      [.insertOpenPosition user.id o.insertSignalDbId fill.id tpOid slOid
                          quantity leverage entryFillPrice tpPx slPx,
                        .startBillingCycle user.id]
                    else [.logErrorDb "POSITION_RECORD_FAILED"]
                  (true, effs4 ++ insertEffs)

/-- Is an effect the open_positions INSERT? -/
def isInsertEff : Eff → Bool
  | .insertOpenPosition _ _ _ _ _ _ _ _ _ _ => true
  | _ => false

/-- Does a trace record an Open Position row? -/
def hasInsert (effs : List Eff) : Bool := effs.any isInsertEff

/-- The quantity of the entry order placed, if any. -/
def entryQtyOf : Eff → Option ℚ
  | .placeEntry _ _ q _ => some q
  | _ => none

/-- The entry quantity placed by a trace, if an entry was placed. -/
def placedEntryQty (effs : List Eff) : Option ℚ := effs.findSome? entryQtyOf

/-- The entry IOC limit price: entry price worsened by the slippage
tolerance in the trade's direction, rounded (lines 467-468). -/
def entryPxOf (signal : TradeSignal) : ℚ :=
  roundPrice (signal.entryPrice *
    (if tradeIsBuy signal then 1 + (SLIPPAGE_BPS : ℚ) / 10000
     else 1 - (SLIPPAGE_BPS : ℚ) / 10000))

section ExecuteTradeShape

variable (user : TradeUser) (signal : TradeSignal) (o : ExecOracle) (sl tp : ℚ)

/-- Shape of an execute_trade run on a valid signal whose entry leg fails
after retries: abort, no emergency close, no position row. -/
lemma executeTrade_entryFail_eq
    (hc : o.credsOk = true)
    (hgate : (checkAnyOpenPositionsOrOrders user.id signal.signalId
      o.gateDb o.gatePositions o.gateOrders).1 = false)
    (he : 0 < o.equity)
    (hsl : signal.stopLoss = some sl) (htp : signal.takeProfit = some tp)
    (hsl0 : 0 < sl) (htp0 : 0 < tp)
    (hdist : signal.entryPrice ≠ sl)
    (hq : 0 < tradeQuantity signal o)
    (hentry : (placeEntryOrderWithRetry o.entryResponses).result = none) :
    executeTrade user signal o = (false, ackEffsOf signal ++
      [.gateQuery,
       .setLeverage (pyInt ((signal.leverage).getD 5)) (tradeCoin signal),
       .placeEntry (tradeCoin signal) (tradeIsBuy signal) (tradeQuantity signal o)
         (entryPxOf signal),
       .logErrorDb "ENTRY_ORDER_FAILED"]) := by
  have hd : ¬ pyAbs (signal.entryPrice - sl) ≤ 0 := by
    rw [pyAbs_eq_abs]
    exact not_le.mpr (abs_pos.mpr (sub_ne_zero.mpr hdist))
  have hq2 : ¬ roundSize o.szDecimals (positionSizeOf o.equity
      (signal.riskPct.getD DEFAULT_RISK_PERCENTAGE) signal.entryPrice sl) ≤ 0 :=
    not_le.mpr (by simpa [tradeQuantity, hsl] using hq)
  simp [executeTrade, entryPxOf, hc, hgate, not_le.mpr he, hsl, htp, pyTruthyQ,
    hsl0.ne', htp0.ne', not_le.mpr hsl0, not_le.mpr htp0, hd, hq2, hentry, tradeQuantity]

/-- Shape of a run whose entry fills but whose TP leg fails after retries:
emergency close, no position row. -/
lemma executeTrade_tpFail_eq (fill : EntryFill)
    (hc : o.credsOk = true)
    (hgate : (checkAnyOpenPositionsOrOrders user.id signal.signalId
      o.gateDb o.gatePositions o.gateOrders).1 = false)
    (he : 0 < o.equity)
    (hsl : signal.stopLoss = some sl) (htp : signal.takeProfit = some tp)
    (hsl0 : 0 < sl) (htp0 : 0 < tp)
    (hdist : signal.entryPrice ≠ sl)
    (hq : 0 < tradeQuantity signal o)
    (hentry : (placeEntryOrderWithRetry o.entryResponses).result = some fill)
    (htpf : (placeTpOrderWithRetry o.tpResponses).result = none) :
    executeTrade user signal o = (false, (ackEffsOf signal ++
      [.gateQuery,
       .setLeverage (pyInt ((signal.leverage).getD 5)) (tradeCoin signal),
       .placeEntry (tradeCoin signal) (tradeIsBuy signal) (tradeQuantity signal o)
         (entryPxOf signal),
       .placeTp (tradeCoin signal) (!tradeIsBuy signal) (tradeQuantity signal o)
         (roundPrice tp)]) ++
      (emergencyClosePosition o (tradeCoin signal) (!tradeIsBuy signal)
        (tradeQuantity signal o) "TP order failed after all retries").2) := by
  have hd : ¬ pyAbs (signal.entryPrice - sl) ≤ 0 := by
    rw [pyAbs_eq_abs]
    exact not_le.mpr (abs_pos.mpr (sub_ne_zero.mpr hdist))
  have hq2 : ¬ roundSize o.szDecimals (positionSizeOf o.equity
      (signal.riskPct.getD DEFAULT_RISK_PERCENTAGE) signal.entryPrice sl) ≤ 0 :=
    not_le.mpr (by simpa [tradeQuantity, hsl] using hq)
  simp [executeTrade, entryPxOf, hc, hgate, not_le.mpr he, hsl, htp, pyTruthyQ,
    hsl0.ne', htp0.ne', not_le.mpr hsl0, not_le.mpr htp0, hd, hq2, hentry, htpf,
    tradeQuantity]

/-- Shape of a run whose entry and TP legs succeed but whose SL leg fails
after retries: the orphaned TP is cancelled (when its id is numeric),
then the emergency close runs; no position row. -/
lemma executeTrade_slFail_eq (fill : EntryFill) (tpOid : String)
    (hc : o.credsOk = true)
    (hgate : (checkAnyOpenPositionsOrOrders user.id signal.signalId
      o.gateDb o.gatePositions o.gateOrders).1 = false)
    (he : 0 < o.equity)
    (hsl : signal.stopLoss = some sl) (htp : signal.takeProfit = some tp)
    (hsl0 : 0 < sl) (htp0 : 0 < tp)
    (hdist : signal.entryPrice ≠ sl)
    (hq : 0 < tradeQuantity signal o)
    (hentry : (placeEntryOrderWithRetry o.entryResponses).result = some fill)
    (htpo : (placeTpOrderWithRetry o.tpResponses).result = some tpOid)
    (hslf : (placeSlOrderWithRetry o.slResponses).result = none) :
    executeTrade user signal o = (false, (ackEffsOf signal ++
      [.gateQuery,
       .setLeverage (pyInt ((signal.leverage).getD 5)) (tradeCoin signal),
       .placeEntry (tradeCoin signal) (tradeIsBuy signal) (tradeQuantity signal o)
         (entryPxOf signal),
       .placeTp (tradeCoin signal) (!tradeIsBuy signal) (tradeQuantity signal o)
         (roundPrice tp),
       .placeSl (tradeCoin signal) (!tradeIsBuy signal) (tradeQuantity signal o)
         (roundPrice sl)]) ++
      (if strAllDigits tpOid then [Eff.cancelOrder (tradeCoin signal) tpOid] else []) ++
      (emergencyClosePosition o (tradeCoin signal) (!tradeIsBuy signal)
        (tradeQuantity signal o) "SL order failed after all retries").2) := by
  have hd : ¬ pyAbs (signal.entryPrice - sl) ≤ 0 := by
    rw [pyAbs_eq_abs]
    exact not_le.mpr (abs_pos.mpr (sub_ne_zero.mpr hdist))
  have hq2 : ¬ roundSize o.szDecimals (positionSizeOf o.equity
      (signal.riskPct.getD DEFAULT_RISK_PERCENTAGE) signal.entryPrice sl) ≤ 0 :=
    not_le.mpr (by simpa [tradeQuantity, hsl] using hq)
  simp [executeTrade, entryPxOf, hc, hgate, not_le.mpr he, hsl, htp, pyTruthyQ,
    hsl0.ne', htp0.ne', not_le.mpr hsl0, not_le.mpr htp0, hd, hq2, hentry, htpo, hslf,
    tradeQuantity]

/-- Shape of a fully successful run: all three legs placed, then the
open_positions row (plus billing-cycle start) when the INSERT succeeds. -/
lemma executeTrade_ok_eq (fill : EntryFill) (tpOid slOid : String)
    (hc : o.credsOk = true)
    (hgate : (checkAnyOpenPositionsOrOrders user.id signal.signalId
      o.gateDb o.gatePositions o.gateOrders).1 = false)
    (he : 0 < o.equity)
    (hsl : signal.stopLoss = some sl) (htp : signal.takeProfit = some tp)
    (hsl0 : 0 < sl) (htp0 : 0 < tp)
    (hdist : signal.entryPrice ≠ sl)
    (hq : 0 < tradeQuantity signal o)
    (hentry : (placeEntryOrderWithRetry o.entryResponses).result = some fill)
    (htpo : (placeTpOrderWithRetry o.tpResponses).result = some tpOid)
    (hslo : (placeSlOrderWithRetry o.slResponses).result = some slOid) :
    executeTrade user signal o = (true, (ackEffsOf signal ++
      [.gateQuery,
       .setLeverage (pyInt ((signal.leverage).getD 5)) (tradeCoin signal),
       .placeEntry (tradeCoin signal) (tradeIsBuy signal) (tradeQuantity signal o)
         (entryPxOf signal),
       .placeTp (tradeCoin signal) (!tradeIsBuy signal) (tradeQuantity signal o)
         (roundPrice tp),
       .placeSl (tradeCoin signal) (!tradeIsBuy signal) (tradeQuantity signal o)
         (roundPrice sl)]) ++
      (if o.dbInsertOk then
        [Eff.insertOpenPosition user.id o.insertSignalDbId fill.id tpOid slOid
            (tradeQuantity signal o) ((signal.leverage).getD 5)
            ((fill.avgPx).getD signal.entryPrice) (roundPrice tp) (roundPrice sl),
          Eff.startBillingCycle user.id]
       else [Eff.logErrorDb "POSITION_RECORD_FAILED"])) := by
  have hd : ¬ pyAbs (signal.entryPrice - sl) ≤ 0 := by
    rw [pyAbs_eq_abs]
    exact not_le.mpr (abs_pos.mpr (sub_ne_zero.mpr hdist))
  have hq2 : ¬ roundSize o.szDecimals (positionSizeOf o.equity
      (signal.riskPct.getD DEFAULT_RISK_PERCENTAGE) signal.entryPrice sl) ≤ 0 :=
    not_le.mpr (by simpa [tradeQuantity, hsl] using hq)
  simp [executeTrade, entryPxOf, hc, hgate, not_le.mpr he, hsl, htp, pyTruthyQ,
    hsl0.ne', htp0.ne', not_le.mpr hsl0, not_le.mpr htp0, hd, hq2, hentry, htpo, hslo,
    tradeQuantity]

/-- Shape of a run on a valid signal whose quantity rounds to zero:
rejected before any order is placed. -/
lemma executeTrade_qtyZero_eq (user : TradeUser) (signal : TradeSignal) (o : ExecOracle)
    (sl tp : ℚ)
    (hc : o.credsOk = true)
    (hgate : (checkAnyOpenPositionsOrOrders user.id signal.signalId
      o.gateDb o.gatePositions o.gateOrders).1 = false)
    (he : 0 < o.equity)
    (hsl : signal.stopLoss = some sl) (htp : signal.takeProfit = some tp)
    (hsl0 : 0 < sl) (htp0 : 0 < tp)
    (hdist : signal.entryPrice ≠ sl)
    (hq0 : tradeQuantity signal o ≤ 0) :
    executeTrade user signal o = (false, ackEffsOf signal ++ [.gateQuery]) := by
  have hd : ¬ pyAbs (signal.entryPrice - sl) ≤ 0 := by
    rw [pyAbs_eq_abs]
    exact not_le.mpr (abs_pos.mpr (sub_ne_zero.mpr hdist))
  have hq2 : roundSize o.szDecimals (positionSizeOf o.equity
      (signal.riskPct.getD DEFAULT_RISK_PERCENTAGE) signal.entryPrice sl) ≤ 0 := by
    simpa [tradeQuantity, hsl] using hq0
  simp [executeTrade, hc, hgate, not_le.mpr he, hsl, htp, pyTruthyQ,
    hsl0.ne', htp0.ne', not_le.mpr hsl0, not_le.mpr htp0, hd, hq2, tradeQuantity]

end ExecuteTradeShape

/-- The acknowledgment prefix contains no entry placement. -/
lemma placedEntryQty_ack (signal : TradeSignal) (rest : List Eff) :
    placedEntryQty (ackEffsOf signal ++ rest) = placedEntryQty rest := by
  rcases h : signal.deliveryId with _ | d
  · simp [ackEffsOf, h]
  · by_cases hd : d = 0 <;> simp [ackEffsOf, h, hd, placedEntryQty, entryQtyOf]

/-- The acknowledgment prefix contains no open-position insert. -/
lemma hasInsert_ack (signal : TradeSignal) (rest : List Eff) :
    hasInsert (ackEffsOf signal ++ rest) = hasInsert rest := by
  rcases h : signal.deliveryId with _ | d
  · simp [ackEffsOf, h]
  · by_cases hd : d = 0 <;> simp [ackEffsOf, h, hd, hasInsert, isInsertEff]

/-- The emergency close emits no open-position insert. -/
lemma hasInsert_emergencyClose (o : ExecOracle) (coin : String) (b : Bool) (qty : ℚ)
    (reason : String) :
    hasInsert (emergencyClosePosition o coin b qty reason).2 = false := by
  by_cases h : 0 < o.midPrice <;> simp [emergencyClosePosition, h, hasInsert, isInsertEff]

/-- The emergency close always starts with its CRITICAL begin marker. -/
lemma emergencyClose_shape (o : ExecOracle) (coin : String) (b : Bool) (qty : ℚ)
    (reason : String) :
    ∃ rest, (emergencyClosePosition o coin b qty reason).2 =
      Eff.emergencyCloseBegin reason :: rest := by
  by_cases h : 0 < o.midPrice
  · exact ⟨[.emergencyCloseOrder coin b qty
        (if b = true then roundPrice (o.midPrice * (1 + 2 / 100))
         else roundPrice (o.midPrice * (1 - 2 / 100))) true,
      .alertBracketIncomplete o.closeOk, .logErrorDb "EMERGENCY_CLOSE"],
      by simp [emergencyClosePosition, h]⟩
  · exact ⟨[.alertBracketIncomplete false, .logErrorDb "EMERGENCY_CLOSE"],
      by simp [emergencyClosePosition, h]⟩

/-- The emergency close always emits the CRITICAL bracket-incomplete alert
carrying its own close outcome. -/
lemma alert_mem_emergencyClose (o : ExecOracle) (coin : String) (b : Bool) (qty : ℚ)
    (reason : String) :
    Eff.alertBracketIncomplete (emergencyClosePosition o coin b qty reason).1 ∈
      (emergencyClosePosition o coin b qty reason).2 := by
  by_cases h : 0 < o.midPrice <;> simp [emergencyClosePosition, h]

/-- When a mid price is available the emergency close places a
reduce-only IOC close order. -/
lemma closeOrder_mem_emergencyClose (o : ExecOracle) (coin : String) (b : Bool) (qty : ℚ)
    (reason : String) (h : 0 < o.midPrice) :
    ∃ px, Eff.emergencyCloseOrder coin b qty px true ∈
      (emergencyClosePosition o coin b qty reason).2 := by
  exact ⟨if b = true then roundPrice (o.midPrice * (1 + 2 / 100))
      else roundPrice (o.midPrice * (1 - 2 / 100)),
    by simp [emergencyClosePosition, h]⟩

/-- The entry quantity placed by execute_trade on an otherwise valid
signal: the rounded size when positive, and no entry at all when the
size rounds to zero. -/
lemma placedEntryQty_executeTrade (user : TradeUser) (signal : TradeSignal) (o : ExecOracle)
    (sl tp : ℚ)
    (hc : o.credsOk = true)
    (hgate : (checkAnyOpenPositionsOrOrders user.id signal.signalId
      o.gateDb o.gatePositions o.gateOrders).1 = false)
    (he : 0 < o.equity)
    (hsl : signal.stopLoss = some sl) (htp : signal.takeProfit = some tp)
    (hsl0 : 0 < sl) (htp0 : 0 < tp)
    (hdist : signal.entryPrice ≠ sl) :
    placedEntryQty (executeTrade user signal o).2 =
      (if 0 < tradeQuantity signal o then some (tradeQuantity signal o) else none) := by
  by_cases hq : 0 < tradeQuantity signal o
  · rw [if_pos hq]
    cases hE : (placeEntryOrderWithRetry o.entryResponses).result with
    | none =>
        rw [executeTrade_entryFail_eq user signal o sl tp hc hgate he hsl htp hsl0 htp0
          hdist hq hE, placedEntryQty_ack]
        simp [placedEntryQty, entryQtyOf]
    | some fill =>
        cases hT : (placeTpOrderWithRetry o.tpResponses).result with
        | none =>
            rw [executeTrade_tpFail_eq user signal o sl tp fill hc hgate he hsl htp hsl0
              htp0 hdist hq hE hT, List.append_assoc, placedEntryQty_ack]
            simp [placedEntryQty, entryQtyOf]
        | some tpOid =>
            cases hS : (placeSlOrderWithRetry o.slResponses).result with
            | none =>
                rw [executeTrade_slFail_eq user signal o sl tp fill tpOid hc hgate he hsl
                  htp hsl0 htp0 hdist hq hE hT hS, List.append_assoc, List.append_assoc,
                  placedEntryQty_ack]
                simp [placedEntryQty, entryQtyOf]
            | some slOid =>
                rw [executeTrade_ok_eq user signal o sl tp fill tpOid slOid hc hgate he hsl
                  htp hsl0 htp0 hdist hq hE hT hS, List.append_assoc, placedEntryQty_ack]
                simp [placedEntryQty, entryQtyOf]
  · rw [if_neg hq, executeTrade_qtyZero_eq user signal o sl tp hc hgate he hsl htp hsl0
      htp0 hdist (not_lt.mp hq), placedEntryQty_ack]
    simp [placedEntryQty, entryQtyOf]

/-- C3: on an executed valid signal the placed quantity is exactly
floor-to-szDecimals of (equity × risk_fraction) / |entry − stop|; the
quantity is identical for any two leverage values; the spec scenario
(entry 0.50, stop 0.48, equity 1000, risk 2%) sizes to 1000 before
rounding; and a quantity that rounds to zero rejects the trade with no
order placed. -/
theorem c3_sizing_no_leverage (user : TradeUser) (signal : TradeSignal) (o : ExecOracle)
    (sl tp : ℚ)
    (hc : o.credsOk = true)
    (hgate : (checkAnyOpenPositionsOrOrders user.id signal.signalId
      o.gateDb o.gatePositions o.gateOrders).1 = false)
    (he : 0 < o.equity)
    (hsl : signal.stopLoss = some sl) (htp : signal.takeProfit = some tp)
    (hsl0 : 0 < sl) (htp0 : 0 < tp)
    (hdist : signal.entryPrice ≠ sl) :
    (0 < tradeQuantity signal o →
      placedEntryQty (executeTrade user signal o).2 =
        some (roundSize o.szDecimals (positionSizeOf o.equity
          ((signal.riskPct).getD DEFAULT_RISK_PERCENTAGE) signal.entryPrice sl))) ∧
    (tradeQuantity signal o ≤ 0 →
      (executeTrade user signal o).1 = false ∧
      placedEntryQty (executeTrade user signal o).2 = none) ∧
    (∀ l1 l2 : Option ℚ,
      placedEntryQty (executeTrade user { signal with leverage := l1 } o).2 =
      placedEntryQty (executeTrade user { signal with leverage := l2 } o).2) ∧
    positionSizeOf 1000 (2 / 100) (1 / 2) (12 / 25) = 1000 := by
  have key := placedEntryQty_executeTrade user signal o sl tp hc hgate he hsl htp hsl0
    htp0 hdist
  have hscenario : positionSizeOf 1000 (2 / 100) (1 / 2) (12 / 25) = 1000 := by
    rw [positionSizeOf, show (1 : ℚ) / 2 - 12 / 25 = 1 / 50 by norm_num, pyAbs_eq_abs,
      abs_of_pos (show (0 : ℚ) < 1 / 50 by norm_num)]
    norm_num
  refine ⟨?_, ?_, ?_, hscenario⟩
  · intro hq
    rw [key, if_pos hq]
    simp [tradeQuantity, hsl]
  · intro hq0
    refine ⟨?_, ?_⟩
    · rw [executeTrade_qtyZero_eq user signal o sl tp hc hgate he hsl htp hsl0 htp0
        hdist hq0]
    · rw [key, if_neg (not_lt.mpr hq0)]
  · intro l1 l2
    have k1 := placedEntryQty_executeTrade user { signal with leverage := l1 } o sl tp hc
      hgate he hsl htp hsl0 htp0 hdist
    have k2 := placedEntryQty_executeTrade user { signal with leverage := l2 } o sl tp hc
      hgate he hsl htp hsl0 htp0 hdist
    rw [k1, k2]; rfl

/-- Concrete user for the execute_trade witnesses. -/
def wUser : TradeUser := { id := 1, apiKey := "nk_witness", email := "w@x.com" }

/-- Concrete valid BUY signal: entry 0.50, stop 0.48, target 0.55,
leverage 5, risk 2%. -/
def wSignal : TradeSignal :=
  { deliveryId := some 1, signalId := some "sig-1", action := "BUY",
    symbol := "ADA/USDT", entryPrice := 1 / 2, stopLoss := some (12 / 25),
    takeProfit := some (11 / 20), leverage := some 5, riskPct := some (2 / 100) }

/-- Concrete healthy oracle: no open positions or orders, equity 1000,
all three legs succeed. -/
def wOracle : ExecOracle :=
  { credsOk := true,
    gateDb := .ok
      { signalIntId := some 1, existingPositionCount := 0, recentTradeCount := 0 },
    gatePositions := .ok [], gateOrders := .ok [], equity := 1000, szDecimals := 0,
    entryResponses := fun _ => .okFilled "11" (1 / 2) 1000,
    tpResponses := fun _ => .okResting "22", slResponses := fun _ => .okResting "33",
    midPrice := 1, closeOk := true, insertSignalDbId := some 1, dbInsertOk := true }

/-- Any oracle with equity 1000 and szDecimals 0 sizes wSignal to
quantity 1000. -/
lemma wQuantity (o : ExecOracle) (he : o.equity = 1000) (hsz : o.szDecimals = 0) :
    tradeQuantity wSignal o = 1000 := by
  simp only [tradeQuantity, wSignal, positionSizeOf, DEFAULT_RISK_PERCENTAGE, roundSize,
    he, hsz, Option.getD_some]
  rw [show (1 : ℚ) / 2 - 12 / 25 = 1 / 50 by norm_num, pyAbs_eq_abs,
    abs_of_pos (show (0 : ℚ) < 1 / 50 by norm_num)]
  norm_num

/-- Witness for c3_sizing_no_leverage: the scenario signal at equity 1000
and szDecimals 0 places quantity 1000. -/
theorem c3_sizing_no_leverage_witness :
    placedEntryQty (executeTrade wUser wSignal wOracle).2 = some 1000 ∧
    positionSizeOf 1000 (2 / 100) (1 / 2) (12 / 25) = 1000 := by
  have h := c3_sizing_no_leverage wUser wSignal wOracle (12 / 25) (11 / 20)
    rfl (by decide) (by norm_num [wOracle]) rfl rfl (by norm_num) (by norm_num)
    (by norm_num [wSignal])
  obtain ⟨h1, _, _, h4⟩ := h
  have hwq : tradeQuantity wSignal wOracle = 1000 := wQuantity wOracle rfl rfl
  have hq : 0 < tradeQuantity wSignal wOracle := by rw [hwq]; norm_num
  refine ⟨(h1 hq).trans ?_, h4⟩
  have : roundSize wOracle.szDecimals (positionSizeOf wOracle.equity
      (wSignal.riskPct.getD DEFAULT_RISK_PERCENTAGE) wSignal.entryPrice (12 / 25)) =
      tradeQuantity wSignal wOracle := by
    simp [tradeQuantity, wSignal]
  rw [this, hwq]

/-- C9: the pre-trade safety gate fails open. A database exception during
the gate's own lookups makes it return (False, None); so does the case
where both the exchange position query and the open-orders query raise
(given the database checks did not themselves find a duplicate); and with
the gate reporting no open positions/orders, execute_trade proceeds to
place the entry order. -/
theorem c9_gate_fails_open (user : TradeUser) (signal : TradeSignal) (o : ExecOracle)
    (sl tp : ℚ)
    (hc : o.credsOk = true)
    (he : 0 < o.equity)
    (hsl : signal.stopLoss = some sl) (htp : signal.takeProfit = some tp)
    (hsl0 : 0 < sl) (htp0 : 0 < tp)
    (hdist : signal.entryPrice ≠ sl)
    (hq : 0 < tradeQuantity signal o) :
    (user.id ≠ 0 → pyTruthyS signal.signalId = true → o.gateDb = .error () →
      checkAnyOpenPositionsOrOrders user.id signal.signalId o.gateDb o.gatePositions
        o.gateOrders = (false, none)) ∧
    (o.gatePositions = .error () → o.gateOrders = .error () →
      (o.gateDb = .error () ∨ ∃ g, o.gateDb = .ok g ∧ g.existingPositionCount = 0 ∧
        g.recentTradeCount = 0) →
      checkAnyOpenPositionsOrOrders user.id signal.signalId o.gateDb o.gatePositions
        o.gateOrders = (false, none)) ∧
    ((checkAnyOpenPositionsOrOrders user.id signal.signalId o.gateDb o.gatePositions
        o.gateOrders).1 = false →
      placedEntryQty (executeTrade user signal o).2 = some (tradeQuantity signal o)) := by
  refine ⟨?_, ?_, ?_⟩
  · intro h1 h2 h3
    simp [checkAnyOpenPositionsOrOrders, h1, h2, h3]
  · intro hp ho hdb
    rcases hdb with hdb | ⟨g, hg, h0, h1⟩
    · by_cases hcond : (user.id != 0 && pyTruthyS signal.signalId) = true <;>
        simp [checkAnyOpenPositionsOrOrders, hcond, hdb, gateExchangeChecks, hp, ho]
    · by_cases hcond : (user.id != 0 && pyTruthyS signal.signalId) = true <;>
        rcases hsid : g.signalIntId with _ | sid <;>
        simp [checkAnyOpenPositionsOrOrders, hcond, hg, hsid, h0, h1,
          gateExchangeChecks, hp, ho]
  · intro hgate
    rw [placedEntryQty_executeTrade user signal o sl tp hc hgate he hsl htp hsl0 htp0
      hdist, if_pos hq]

lemma hasInsert_append (l1 l2 : List Eff) :
    hasInsert (l1 ++ l2) = (hasInsert l1 || hasInsert l2) := by
  simp [hasInsert]

/-- C2 (amended): under the pre-trade validity conditions, the
open_positions row is recorded iff all three legs (entry, TP, SL) were
confirmed placed AND the row INSERT itself succeeds — when the INSERT
fails the code swallows the exception and returns success with all three
legs placed and no row (lines 575-579; the separate counterexample); on
a TP-leg failure no row is created, the emergency close is invoked
(placing a reduce-only close order when a mid price is available) and
the CRITICAL alert reporting the close outcome is emitted; on an SL-leg
failure with a numeric TP order id (int() of the id is inside a try, so
a non-digit id silently skips the cancel, lines 520-523) the orphaned TP
order is cancelled first, directly followed by the emergency close,
again with the CRITICAL alert; on an entry failure the trade aborts with
no row. -/
theorem c2_bracket_atomicity (user : TradeUser) (signal : TradeSignal) (o : ExecOracle)
    (sl tp : ℚ)
    (hc : o.credsOk = true)
    (hgate : (checkAnyOpenPositionsOrOrders user.id signal.signalId
      o.gateDb o.gatePositions o.gateOrders).1 = false)
    (he : 0 < o.equity)
    (hsl : signal.stopLoss = some sl) (htp : signal.takeProfit = some tp)
    (hsl0 : 0 < sl) (htp0 : 0 < tp)
    (hdist : signal.entryPrice ≠ sl)
    (hq : 0 < tradeQuantity signal o)
    (hdbok : o.dbInsertOk = true) :
    (hasInsert (executeTrade user signal o).2 = true ↔
      ((placeEntryOrderWithRetry o.entryResponses).result.isSome ∧
        (placeTpOrderWithRetry o.tpResponses).result.isSome ∧
        (placeSlOrderWithRetry o.slResponses).result.isSome)) ∧
    (∀ fill, (placeEntryOrderWithRetry o.entryResponses).result = some fill →
      (placeTpOrderWithRetry o.tpResponses).result = none →
      hasInsert (executeTrade user signal o).2 = false ∧
      Eff.emergencyCloseBegin "TP order failed after all retries" ∈
        (executeTrade user signal o).2 ∧
      Eff.alertBracketIncomplete (emergencyClosePosition o (tradeCoin signal)
        (!tradeIsBuy signal) (tradeQuantity signal o)
        "TP order failed after all retries").1 ∈ (executeTrade user signal o).2 ∧
      (0 < o.midPrice → ∃ px, Eff.emergencyCloseOrder (tradeCoin signal)
        (!tradeIsBuy signal) (tradeQuantity signal o) px true ∈
          (executeTrade user signal o).2)) ∧
    (∀ fill tpOid, (placeEntryOrderWithRetry o.entryResponses).result = some fill →
      (placeTpOrderWithRetry o.tpResponses).result = some tpOid →
      (placeSlOrderWithRetry o.slResponses).result = none →
      strAllDigits tpOid = true →
      hasInsert (executeTrade user signal o).2 = false ∧
      (∃ pre post, (executeTrade user signal o).2 =
        pre ++ Eff.cancelOrder (tradeCoin signal) tpOid ::
          Eff.emergencyCloseBegin "SL order failed after all retries" :: post) ∧
      Eff.alertBracketIncomplete (emergencyClosePosition o (tradeCoin signal)
        (!tradeIsBuy signal) (tradeQuantity signal o)
        "SL order failed after all retries").1 ∈ (executeTrade user signal o).2) ∧
    ((placeEntryOrderWithRetry o.entryResponses).result = none →
      hasInsert (executeTrade user signal o).2 = false ∧
      (executeTrade user signal o).1 = false) := by
  refine ⟨?_, ?_, ?_, ?_⟩
  · cases hE : (placeEntryOrderWithRetry o.entryResponses).result with
    | none =>
        rw [executeTrade_entryFail_eq user signal o sl tp hc hgate he hsl htp hsl0 htp0
          hdist hq hE, hasInsert_ack]
        simp [hasInsert, isInsertEff, hE]
    | some fill =>
      cases hT : (placeTpOrderWithRetry o.tpResponses).result with
      | none =>
          rw [executeTrade_tpFail_eq user signal o sl tp fill hc hgate he hsl htp hsl0
            htp0 hdist hq hE hT, List.append_assoc, hasInsert_ack, hasInsert_append,
            hasInsert_emergencyClose]
          simp [hasInsert, isInsertEff, hT]
      | some tpOid =>
        cases hS : (placeSlOrderWithRetry o.slResponses).result with
        | none =>
            rw [executeTrade_slFail_eq user signal o sl tp fill tpOid hc hgate he hsl htp
              hsl0 htp0 hdist hq hE hT hS, List.append_assoc, List.append_assoc,
              hasInsert_ack, hasInsert_append, hasInsert_append,
              hasInsert_emergencyClose]
            by_cases hdig : strAllDigits tpOid = true <;>
              simp [hasInsert, isInsertEff, hS, hdig]
        | some slOid =>
            rw [executeTrade_ok_eq user signal o sl tp fill tpOid slOid hc hgate he hsl
              htp hsl0 htp0 hdist hq hE hT hS, List.append_assoc, hasInsert_ack,
              hasInsert_append, hdbok]
            simp [hasInsert, isInsertEff, hE, hT, hS]
  · intro fill hE hT
    rw [executeTrade_tpFail_eq user signal o sl tp fill hc hgate he hsl htp hsl0 htp0
      hdist hq hE hT]
    obtain ⟨rest, hshape⟩ := emergencyClose_shape o (tradeCoin signal) (!tradeIsBuy signal)
      (tradeQuantity signal o) "TP order failed after all retries"
    refine ⟨?_, ?_, ?_, ?_⟩
    · rw [List.append_assoc, hasInsert_ack, hasInsert_append, hasInsert_emergencyClose]
      simp [hasInsert, isInsertEff]
    · simp only [List.mem_append, hshape]
      simp
    · exact List.mem_append.mpr (Or.inr (alert_mem_emergencyClose o (tradeCoin signal)
        (!tradeIsBuy signal) (tradeQuantity signal o) "TP order failed after all retries"))
    · intro hmid
      obtain ⟨px, hpx⟩ := closeOrder_mem_emergencyClose o (tradeCoin signal)
        (!tradeIsBuy signal) (tradeQuantity signal o) "TP order failed after all retries"
        hmid
      exact ⟨px, List.mem_append.mpr (Or.inr hpx)⟩
  · intro fill tpOid hE hT hS hdig
    rw [executeTrade_slFail_eq user signal o sl tp fill tpOid hc hgate he hsl htp hsl0
      htp0 hdist hq hE hT hS, if_pos hdig]
    obtain ⟨rest, hshape⟩ := emergencyClose_shape o (tradeCoin signal) (!tradeIsBuy signal)
      (tradeQuantity signal o) "SL order failed after all retries"
    refine ⟨?_, ?_, ?_⟩
    · rw [List.append_assoc, List.append_assoc, hasInsert_ack, hasInsert_append,
        hasInsert_append, hasInsert_emergencyClose]
      simp [hasInsert, isInsertEff]
    · refine ⟨ackEffsOf signal ++
        [.gateQuery,
         .setLeverage (pyInt ((signal.leverage).getD 5)) (tradeCoin signal),
         .placeEntry (tradeCoin signal) (tradeIsBuy signal) (tradeQuantity signal o)
           (entryPxOf signal),
         .placeTp (tradeCoin signal) (!tradeIsBuy signal) (tradeQuantity signal o)
           (roundPrice tp),
         .placeSl (tradeCoin signal) (!tradeIsBuy signal) (tradeQuantity signal o)
           (roundPrice sl)], rest, ?_⟩
      rw [hshape]
      simp
    · exact List.mem_append.mpr (Or.inr (alert_mem_emergencyClose o (tradeCoin signal)
        (!tradeIsBuy signal) (tradeQuantity signal o) "SL order failed after all retries"))
  · intro hE
    rw [executeTrade_entryFail_eq user signal o sl tp hc hgate he hsl htp hsl0 htp0
      hdist hq hE, hasInsert_ack]
    simp [hasInsert, isInsertEff]

/-- Oracle for the C2 witness: entry and TP succeed, SL fails every
attempt, mid price available for the emergency close. -/
def c2Oracle : ExecOracle :=
  { wOracle with slResponses := fun _ => .notOk "exchange down" }

/-- Witness for c2_bracket_atomicity: the SL leg fails, no Open Position
row is recorded, and the orphaned TP cancel directly precedes the
emergency close. -/
theorem c2_bracket_atomicity_witness :
    hasInsert (executeTrade wUser wSignal c2Oracle).2 = false ∧
    (∃ pre post, (executeTrade wUser wSignal c2Oracle).2 =
      pre ++ Eff.cancelOrder (tradeCoin wSignal) "22" ::
        Eff.emergencyCloseBegin "SL order failed after all retries" :: post) := by
  have h := c2_bracket_atomicity wUser wSignal c2Oracle (12 / 25) (11 / 20)
    rfl (by decide) (by norm_num [c2Oracle, wOracle]) rfl rfl (by norm_num)
    (by norm_num) (by norm_num [wSignal])
    (by rw [wQuantity c2Oracle rfl rfl]; norm_num) rfl
  obtain ⟨_, _, h3, _⟩ := h
  obtain ⟨ha, hb, _⟩ := h3 { id := "11", avgPx := some (1 / 2), totalSz := some 1000 }
    "22" rfl rfl rfl (by decide)
  exact ⟨ha, hb⟩

/-- Oracle for the C2 counterexample: all three legs succeed but the
open_positions INSERT fails. -/
def c2FailOracle : ExecOracle := { wOracle with dbInsertOk := false }

/-- C2 counterexample: when the open_positions INSERT fails, all three
orders are confirmed placed, execute_trade swallows the store exception
and still returns success ("trade still placed", lines 575-579), yet no
Open Position row is recorded and no CRITICAL bracket alert is emitted —
refuting the unconditional row-iff-three-legs claim. -/
theorem c2_insert_failure_counterexample :
    (placeEntryOrderWithRetry c2FailOracle.entryResponses).result.isSome = true ∧
    (placeTpOrderWithRetry c2FailOracle.tpResponses).result.isSome = true ∧
    (placeSlOrderWithRetry c2FailOracle.slResponses).result.isSome = true ∧
    (executeTrade wUser wSignal c2FailOracle).1 = true ∧
    hasInsert (executeTrade wUser wSignal c2FailOracle).2 = false ∧
    (∀ b, Eff.alertBracketIncomplete b ∉ (executeTrade wUser wSignal c2FailOracle).2) := by
  have hok := executeTrade_ok_eq wUser wSignal c2FailOracle (12 / 25) (11 / 20)
    { id := "11", avgPx := some (1 / 2), totalSz := some 1000 } "22" "33"
    rfl (by decide) (by norm_num [c2FailOracle, wOracle]) rfl rfl (by norm_num)
    (by norm_num) (by norm_num [wSignal])
    (by rw [wQuantity c2FailOracle rfl rfl]; norm_num) rfl rfl rfl
  refine ⟨rfl, rfl, rfl, by rw [hok], ?_, ?_⟩
  · rw [hok]
    show hasInsert ((ackEffsOf wSignal ++ _) ++ _) = false
    rw [List.append_assoc, hasInsert_ack, hasInsert_append]
    simp [hasInsert, isInsertEff, c2FailOracle, wOracle]
  · intro b
    rw [hok]
    simp [ackEffsOf, wSignal, c2FailOracle, wOracle]

/-- Oracle for the C9 witness: database errors during the gate, exchange
healthy for everything else. -/
def c9Oracle : ExecOracle :=
  { wOracle with gateDb := .error () }

/-- Witness for c9_gate_fails_open: the gate returns (False, None) on a
database error and the entry order is still placed. -/
theorem c9_gate_fails_open_witness :
    checkAnyOpenPositionsOrOrders wUser.id wSignal.signalId c9Oracle.gateDb
      c9Oracle.gatePositions c9Oracle.gateOrders = (false, none) ∧
    placedEntryQty (executeTrade wUser wSignal c9Oracle).2 =
      some (tradeQuantity wSignal c9Oracle) := by
  have h := c9_gate_fails_open wUser wSignal c9Oracle (12 / 25) (11 / 20)
    rfl (by norm_num [c9Oracle, wOracle]) rfl rfl (by norm_num) (by norm_num)
    (by norm_num [wSignal]) (by rw [wQuantity c9Oracle rfl rfl]; norm_num)
  obtain ⟨h1, _, h3⟩ := h
  have hg := h1 (by decide) (by decide) rfl
  exact ⟨hg, h3 (by rw [hg])⟩

/-!
## src/position_monitor.py — reconciliation loop

find_matching_signal (lines 142-175), check_position_closed (334-411),
get_hl_realized_pnl (413-471), record_trade_close (473-610),
check_position (612-707). Timestamps are integers in a single unit.
-/

/-- get_base_symbol (position_monitor.py lines 126-138). -/
def getBaseSymbol (symbol : String) : String :=
  if symbol.isEmpty then ""
  else
    let base := upperStr symbol
    let base := if containsStr base "/" then takeBefore (Char.ofNat 47) base else base
    trimStr (replaceStr (replaceStr (replaceStr base "PF_" "") "USD" "") "USDT" "")

/-- A broadcast signal row, as read by find_matching_signal. -/
structure StoreSignal where
  id : ℕ
  signalId : Option String
  symbol : String
  action : String
  createdAt : ℤ
  deriving Repr, DecidableEq

/-- action_map lookup (line 151-152): long→BUY, short→SELL, fallback
side.upper(). -/
def actionFromSide (side : String) : String :=
  if lowerStr side == "long" then "BUY"
  else if lowerStr side == "short" then "SELL"
  else upperStr side

/-- ORDER BY created_at DESC LIMIT 1: latest matching signal. -/
def pickLatest (l : List StoreSignal) : Option StoreSignal :=
  l.foldl (fun acc s =>
    match acc with
    | none => some s
    | some b => if b.createdAt < s.createdAt then some s else some b) none

/-- find_matching_signal (lines 142-175): same base instrument (LIKE
'%base%' on the upper-cased stored symbol), equivalent action, created
within the 48-hour lookback; latest wins. A database error returns None
(treated as no match). -/
def findMatchingSignal (store : List StoreSignal) (now : ℤ) (symbol side : String) :
    Option StoreSignal :=
  let symbolBase := getBaseSymbol symbol
  let signalAction := actionFromSide side
  let thr := now - 48 * 3600
  pickLatest (store.filter (fun s =>
    containsStr (upperStr s.symbol) symbolBase &&
    upperStr s.action == upperStr signalAction &&
    decide (thr ≤ s.createdAt)))

/-- A fill row from info.user_fills. -/
structure HFill where
  coin : String
  px : ℚ
  sz : ℚ
  time : ℤ
  closedPnl : ℚ
  deriving Repr, DecidableEq

/-- Stable descending insertion by fill time (models
fills.sort(key=time, reverse=True)). -/
def insertFillDesc (f : HFill) : List HFill → List HFill
  | [] => [f]
  | b :: rest => if b.time < f.time then f :: b :: rest else b :: insertFillDesc f rest

def sortFillsDesc (fs : List HFill) : List HFill :=
  fs.foldl (fun acc f => insertFillDesc f acc) []

/-- Exit-price lookup (lines 389-401): most recent fill for the coin. -/
def exitPriceFromFills (fills : Except String (List HFill)) (coin : String) : Option ℚ :=
  match fills with
  | .error _ => none
  | .ok fs => ((sortFillsDesc fs).find? (fun f => f.coin == coin)).map (fun f => f.px)

/-- A database row of open_positions as read by check_position /
record_trade_close (fields with Python-falsy semantics kept as Options). -/
structure MonPosition where
  id : Option ℕ
  userId : ℕ
  signalId : Option ℕ
  entryOrderId : Option String
  tpOrderId : String
  slOrderId : String
  symbol : String
  hlCoin : Option String
  side : Option String
  quantity : Option ℚ
  leverage : ℚ
  entryFillPrice : Option ℚ
  avgEntryPrice : Option ℚ
  filledQuantity : Option ℚ
  fillCount : Option ℕ
  targetTp : ℚ
  targetSl : ℚ
  openedAt : Option ℤ
  firstFillAt : Option ℤ
  deriving Repr, DecidableEq

/-- Effects of the reconciliation path. -/
inductive MEff where
  | setStatus (posId : ℕ) (status : String)
  | insertTrade (userId : ℕ) (signalId : Option String) (exitType : String) (profitUsd : ℚ)
  | updateUserStats (userId : ℕ) (profitUsd : ℚ)
  | startBilling (userId : ℕ)
  | cancelRemaining (coin : String) (oid : String)
  | scanFills
  deriving Repr, DecidableEq

/-- Result dict of check_position_closed. -/
structure CPC where
  closed : Bool
  anomaly : Bool
  hasError : Bool
  exitPrice : Option ℚ
  exitType : String
  deriving Repr, DecidableEq

/-- check_position_closed (lines 334-411): a live position for the coin
(or, defensively, any coin) means still open; with no live position, if
both bracket order ids still rest among open orders the state is an
anomaly (closed=False); otherwise the side still resting identifies the
exit type (the other implicitly filled), UNKNOWN when neither rests or
the orders query fails; the exit price is the most recent fill for the
coin. -/
def checkPositionClosed (userState : Except String (List HLPosition))
    (openOrders : Except String (List HLOrder)) (fills : Except String (List HFill))
    (coin : String) (tpOrderId slOrderId : String) : CPC :=
  match userState with
  | .error _ =>
      { closed := false, anomaly := false, hasError := true, exitPrice := none,
        exitType := "UNKNOWN" }
  | .ok ps =>
      if ps.any (fun p => p.coin == coin && decide (0 < pyAbs p.szi)) then
        { closed := false, anomaly := false, hasError := false, exitPrice := none,
          exitType := "UNKNOWN" }
      else if ps.any (fun p => decide (0 < pyAbs p.szi)) then
        { closed := false, anomaly := false, hasError := false, exitPrice := none,
          exitType := "UNKNOWN" }
      else
        match openOrders with
        | .ok os =>
            let tpEx := os.any (fun od => od.oid == tpOrderId)
            let slEx := os.any (fun od => od.oid == slOrderId)
            if tpEx && slEx then
              { closed := false, anomaly := true, hasError := false, exitPrice := none,
                exitType := "UNKNOWN" }
            else
              { closed := true, anomaly := false, hasError := false,
                exitPrice := exitPriceFromFills fills coin,
                exitType := if !tpEx && slEx then "TP"
                  else if tpEx && !slEx then "SL" else "UNKNOWN" }
        | .error _ =>
            { closed := true, anomaly := false, hasError := false,
              exitPrice := exitPriceFromFills fills coin, exitType := "UNKNOWN" }

/-- get_hl_realized_pnl (lines 413-471), reduced to the realized_pnl
field consumed by check_position: sum of closedPnl over the coin's fills
since the position opened; None when there are no qualifying fills or
the query fails. -/
def getHlRealizedPnl (fills : Except String (List HFill)) (coin : String)
    (sinceTime : Option ℤ) : Option ℚ :=
  match fills with
  | .error _ => none
  | .ok fs =>
      if fs.isEmpty then none
      else
        let coinFills := fs.filter (fun f => f.coin == coin)
        if coinFills.isEmpty then none
        else
          let recentFills : List HFill :=
            match sinceTime with
            | some t => coinFills.filter (fun f => decide (t ≤ f.time))
            | none => coinFills
          if recentFills.isEmpty then none
          else some ((recentFills.map (fun f => f.closedPnl)).sum)

/-- Python `a or b` on optional timestamps (datetimes are always truthy). -/
def pyOrI (a b : Option ℤ) : Option ℤ := if a.isSome then a else b

/-- Side normalization of record_trade_close (lines 486-489). -/
def normalizeSide : Option String → Option String
  | none => none
  | some s =>
      if upperStr s == "BUY" || upperStr s == "LONG" then some "LONG"
      else if upperStr s == "SELL" || upperStr s == "SHORT" then some "SHORT"
      else some s

/-- The entry==exit guard threshold 0.00001 (line 498). -/
def EPS : ℚ := 1 / 100000

/-- The matching signal consulted when the position has no bound signal
id: find_matching_signal(symbol, side); a None side raises inside the
helper's try and yields None. -/
def matchedSignalOf (store : List StoreSignal) (now : ℤ) (position : MonPosition) :
    Option StoreSignal :=
  match normalizeSide position.side with
  | none => none
  | some sd => findMatchingSignal store now position.symbol sd

/-- The closed_manual status update (lines 511-517), guarded by
`if position.get('id')`. -/
def manualEffs (position : MonPosition) : List MEff :=
  match position.id with
  | some pid => if pid != 0 then [.setStatus pid "closed_manual"] else []
  | none => []

/-- The effects of a recorded signal-trade closure (lines 547-597):
trades INSERT, follower_users profit counters update, billing-cycle
start when an open timestamp exists, status closed. P&L prefers the
exchange-reported realized value when its magnitude exceeds 0.01. -/
def closeEffs (position : MonPosition) (entryPrice exitPrice : ℚ) (exitType : String)
    (hlPnl : Option ℚ) (side : Option String) (sid : Option String) : List MEff :=
  let sizeV := (pyOrQ position.filledQuantity position.quantity).getD 0
  let calcPnl :=
    if side == some "LONG" then (exitPrice - entryPrice) * sizeV
    else (entryPrice - exitPrice) * sizeV
  let profitUsd :=
    match hlPnl with
    | some pl => if (1 : ℚ) / 100 < pyAbs pl then pl else calcPnl
    | none => calcPnl
  [MEff.insertTrade position.userId sid exitType profitUsd,
   MEff.updateUserStats position.userId profitUsd] ++
  (if (pyOrI position.openedAt position.firstFillAt).isSome then
    [MEff.startBilling position.userId] else []) ++
  (match position.id with
   | some pid => if pid != 0 then [MEff.setStatus pid "closed"] else []
   | none => [])

/-- record_trade_close (lines 473-610): missing entry price or size, or
an entry indistinguishable from the exit (after falling back to the raw
entry fill price), returns False with no writes; a position with no
bound signal id and no matching broadcast signal is marked closed_manual
with no Trade row and no P&L attribution; otherwise the trade is
recorded. -/
def recordTradeClose (store : List StoreSignal) (now : ℤ) (position : MonPosition)
    (exitPrice : ℚ) (exitType : String) (hlPnl : Option ℚ) : Bool × List MEff :=
  let entry0 := pyOrQ position.avgEntryPrice position.entryFillPrice
  let size0 := pyOrQ position.filledQuantity position.quantity
  let side := normalizeSide position.side
  if !pyTruthyQ entry0 || !pyTruthyQ size0 then (false, [])
  else
    let entry1 := entry0.getD 0
    let entryR : Option ℚ :=
      if pyAbs (entry1 - exitPrice) < EPS then
        (if !pyTruthyQ position.entryFillPrice ||
            pyAbs (position.entryFillPrice.getD 0 - exitPrice) < EPS then none
         else some (position.entryFillPrice.getD 0))
      else some entry1
    match entryR with
    | none => (false, [])
    | some entryPrice =>
        if !pyTruthyN position.signalId then
          match matchedSignalOf store now position with
          | none => (false, manualEffs position)
          | some m =>
              let sid :=
                if pyTruthyS m.signalId then m.signalId
                else if m.id = 0 then none else some (toString m.id)
              (true, closeEffs position entryPrice exitPrice exitType hlPnl side sid)
        else
          (true, closeEffs position entryPrice exitPrice exitType hlPnl side
            (some (toString (position.signalId.getD 0))))

/-- Exit-type disambiguation by price proximity (lines 663-671): strictly
closer to target_tp wins, ties resolve to SL. -/
def proximityExitType (p tp sl : ℚ) : String :=
  if pyAbs (p - tp) < pyAbs (p - sl) then "TP" else "SL"

/-- The coin monitored: hl_coin when truthy else the base symbol
(line 628). -/
def monCoinOf (position : MonPosition) : String :=
  match position.hlCoin with
  | some c => if !c.isEmpty then c else getBaseSymbol position.symbol
  | none => getBaseSymbol position.symbol

/-- check_position (lines 612-707): still-open (including the anomaly
case) does nothing; a closure without a determinable exit price marks the
position needs_review; otherwise the exit type is recomputed from price
proximity (overwriting the order-based inference), the closure is
recorded, the surviving bracket order is cancelled (when its id is
numeric) and fills are rescanned. Monitored rows always carry their id
(the SELECT includes op.id); a missing id is read as 0. -/
def checkPosition (store : List StoreSignal) (now : ℤ) (position : MonPosition)
    (userState : Except String (List HLPosition))
    (openOrders : Except String (List HLOrder))
    (fills : Except String (List HFill)) : List MEff :=
  let coin := monCoinOf position
  let r := checkPositionClosed userState openOrders fills coin
    position.tpOrderId position.slOrderId
  if !r.closed then []
  else
    match r.exitPrice with
    | none => [.setStatus (position.id.getD 0) "needs_review"]
    | some p =>
        let exitType := proximityExitType p position.targetTp position.targetSl
        let hlPnl := getHlRealizedPnl fills coin position.openedAt
        let effs := (recordTradeClose store now position p exitType hlPnl).2
        let remaining := if exitType == "TP" then position.slOrderId else position.tpOrderId
        effs ++ (if strAllDigits remaining then [MEff.cancelRemaining coin remaining]
          else []) ++ [MEff.scanFills]

/-- A ledger-affecting effect: a trades INSERT or a profit-counter
update. -/
def isLedgerEff : MEff → Bool
  | .insertTrade _ _ _ _ => true
  | .updateUserStats _ _ => true
  | _ => false

lemma manualEffs_ledger_free (position : MonPosition) :
    (manualEffs position).all (fun e => !isLedgerEff e) = true := by
  rcases h : position.id with _ | pid
  · simp [manualEffs, h]
  · by_cases hpid : pid = 0 <;> simp [manualEffs, h, hpid, isLedgerEff]

/-- Every no-signal-match run of record_trade_close either returns with
no effects at all (the guard paths) or with only the closed_manual
status update. -/
lemma recordTradeClose_noMatch_shape (store : List StoreSignal) (now : ℤ)
    (position : MonPosition) (exitPrice : ℚ) (exitType : String) (hlPnl : Option ℚ)
    (hsid : pyTruthyN position.signalId = false)
    (hnomatch : matchedSignalOf store now position = none) :
    recordTradeClose store now position exitPrice exitType hlPnl = (false, []) ∨
    recordTradeClose store now position exitPrice exitType hlPnl =
      (false, manualEffs position) := by
  unfold recordTradeClose
  by_cases h1 : (!pyTruthyQ (pyOrQ position.avgEntryPrice position.entryFillPrice) ||
      !pyTruthyQ (pyOrQ position.filledQuantity position.quantity)) = true
  · left; simp [h1]
  · by_cases h2 : pyAbs ((pyOrQ position.avgEntryPrice position.entryFillPrice).getD 0 -
        exitPrice) < EPS
    · by_cases h3 : (!pyTruthyQ position.entryFillPrice ||
          pyAbs (position.entryFillPrice.getD 0 - exitPrice) < EPS) = true
      · left; simp [h1, h2, h3]
      · right; simp [h1, h2, h3, hsid, hnomatch]
    · right; simp [h1, h2, hsid, hnomatch]

/-- C6 counterexample position: no bound signal id, entry price equal to
the exit price. -/
def c6Pos : MonPosition :=
  { id := some 9, userId := 4, signalId := none, entryOrderId := some "101",
    tpOrderId := "102", slOrderId := "103", symbol := "ZZZ/USDT", hlCoin := some "ZZZ",
    side := some "BUY", quantity := some 5, leverage := 1, entryFillPrice := some 1,
    avgEntryPrice := some 1, filledQuantity := some 5, fillCount := some 1,
    targetTp := 2, targetSl := 1, openedAt := some 0, firstFillAt := none }

/-- C6 counterexample: a closed position with no bound signal and no
matching broadcast signal whose recorded entry equals its exit price is
NOT marked closed_manual — the entry==exit guard returns first, leaving
the status untouched (record_trade_close lines 498-502 precede the
signal-match block). -/
theorem c6_manual_mark_counterexample :
    c6Pos.signalId = none ∧
    matchedSignalOf [] 0 c6Pos = none ∧
    recordTradeClose [] 0 c6Pos 1 "SL" none = (false, []) := by
  refine ⟨rfl, by decide, ?_⟩
  have h1 : (!pyTruthyQ (pyOrQ c6Pos.avgEntryPrice c6Pos.entryFillPrice) ||
      !pyTruthyQ (pyOrQ c6Pos.filledQuantity c6Pos.quantity)) = false := by
    norm_num [c6Pos, pyOrQ, pyTruthyQ]
  have h2 : pyAbs ((pyOrQ c6Pos.avgEntryPrice c6Pos.entryFillPrice).getD 0 - 1) < EPS := by
    norm_num [c6Pos, pyOrQ, pyTruthyQ, pyAbs, EPS]
  have h3 : (!pyTruthyQ c6Pos.entryFillPrice ||
      decide (pyAbs (c6Pos.entryFillPrice.getD 0 - 1) < EPS)) = true := by
    norm_num [c6Pos, pyTruthyQ, pyAbs, EPS]
  unfold recordTradeClose
  simp [h1, h2, h3]

/-- C6 (amended): a closed position with no bound signal id and no
matching broadcast signal in the lookback window produces zero Trade
ledger rows and zero profit-counter updates, and the close reports
failure; the closed_manual marking additionally requires the recorded
entry price and size to be present and the entry to differ from the exit
by at least the 1e-5 guard. -/
theorem c6_manual_trade_exclusion (store : List StoreSignal) (now : ℤ)
    (position : MonPosition) (exitPrice : ℚ) (exitType : String) (hlPnl : Option ℚ)
    (pid : ℕ)
    (hsid : pyTruthyN position.signalId = false)
    (hnomatch : matchedSignalOf store now position = none) :
    ((recordTradeClose store now position exitPrice exitType hlPnl).2.all
      (fun e => !isLedgerEff e) = true) ∧
    ((recordTradeClose store now position exitPrice exitType hlPnl).1 = false) ∧
    (pyTruthyQ (pyOrQ position.avgEntryPrice position.entryFillPrice) = true →
      pyTruthyQ (pyOrQ position.filledQuantity position.quantity) = true →
      EPS ≤ pyAbs ((pyOrQ position.avgEntryPrice position.entryFillPrice).getD 0 -
        exitPrice) →
      position.id = some pid → pid ≠ 0 →
      recordTradeClose store now position exitPrice exitType hlPnl =
        (false, [.setStatus pid "closed_manual"])) := by
  refine ⟨?_, ?_, ?_⟩
  · rcases recordTradeClose_noMatch_shape store now position exitPrice exitType hlPnl
      hsid hnomatch with h | h
    · simp [h]
    · rw [h]
      exact manualEffs_ledger_free position
  · rcases recordTradeClose_noMatch_shape store now position exitPrice exitType hlPnl
      hsid hnomatch with h | h <;> simp [h]
  · intro hpe hps hfar hid hpid
    have h1 : (!pyTruthyQ (pyOrQ position.avgEntryPrice position.entryFillPrice) ||
        !pyTruthyQ (pyOrQ position.filledQuantity position.quantity)) = false := by
      simp [hpe, hps]
    have h2 : ¬ pyAbs ((pyOrQ position.avgEntryPrice position.entryFillPrice).getD 0 -
        exitPrice) < EPS := not_lt.mpr hfar
    unfold recordTradeClose
    simp [h1, h2, hsid, hnomatch, manualEffs, hid, hpid]

/-- C6 witness position: no bound signal, entry 2 distinct from exit 1. -/
def c6PosB : MonPosition :=
  { c6Pos with avgEntryPrice := some 2, entryFillPrice := some 2 }

/-- Witness for c6_manual_trade_exclusion at a concrete position. -/
theorem c6_manual_trade_exclusion_witness :
    recordTradeClose [] 0 c6PosB 1 "SL" none = (false, [.setStatus 9 "closed_manual"]) ∧
    (recordTradeClose [] 0 c6PosB 1 "SL" none).2.all (fun e => !isLedgerEff e) = true := by
  have h := c6_manual_trade_exclusion [] 0 c6PosB 1 "SL" none 9 (by decide) (by decide)
  obtain ⟨h1, _, h3⟩ := h
  refine ⟨h3 ?_ ?_ ?_ rfl (by decide), h1⟩
  · norm_num [c6PosB, c6Pos, pyOrQ, pyTruthyQ]
  · norm_num [c6PosB, c6Pos, pyOrQ, pyTruthyQ]
  · norm_num [c6PosB, c6Pos, pyOrQ, pyTruthyQ, pyAbs, EPS]

/-- Does an open-orders query answer show both bracket ids still
resting? (the anomaly condition of check_position_closed). -/
def ordersAnomalous (oo : Except String (List HLOrder)) (tpOid slOid : String) : Bool :=
  match oo with
  | .ok os => os.any (fun od => od.oid == tpOid) && os.any (fun od => od.oid == slOid)
  | .error _ => false

/-- The exit types of the Trade rows inserted by a trace. -/
def insertedExitTypes (effs : List MEff) : List String :=
  effs.filterMap (fun e =>
    match e with
    | .insertTrade _ _ et _ => some et
    | _ => none)

lemma insertedExitTypes_closeEffs (position : MonPosition) (entryPrice exitPrice : ℚ)
    (exitType : String) (hlPnl : Option ℚ) (side sid : Option String) :
    insertedExitTypes (closeEffs position entryPrice exitPrice exitType hlPnl side sid) =
      [exitType] := by
  unfold closeEffs insertedExitTypes
  rcases h : position.id with _ | pid
  · by_cases hb : (pyOrI position.openedAt position.firstFillAt).isSome <;> simp [h, hb]
  · by_cases hb : (pyOrI position.openedAt position.firstFillAt).isSome <;>
      by_cases hpid : pid = 0 <;> simp [h, hb, hpid]

lemma insertedExitTypes_manualEffs (position : MonPosition) :
    insertedExitTypes (manualEffs position) = [] := by
  rcases h : position.id with _ | pid
  · simp [manualEffs, insertedExitTypes, h]
  · by_cases hpid : pid = 0 <;> simp [manualEffs, insertedExitTypes, h, hpid]

/-- Whatever branch record_trade_close takes, any Trade row it inserts
carries exactly the exit type it was handed. -/
lemma insertedExitTypes_recordTradeClose (store : List StoreSignal) (now : ℤ)
    (position : MonPosition) (exitPrice : ℚ) (exitType : String) (hlPnl : Option ℚ) :
    ∀ et ∈ insertedExitTypes
      (recordTradeClose store now position exitPrice exitType hlPnl).2, et = exitType := by
  intro et het
  unfold recordTradeClose at het
  by_cases h1 : (!pyTruthyQ (pyOrQ position.avgEntryPrice position.entryFillPrice) ||
      !pyTruthyQ (pyOrQ position.filledQuantity position.quantity)) = true
  · simp [h1, insertedExitTypes] at het
  · by_cases h2 : pyAbs ((pyOrQ position.avgEntryPrice position.entryFillPrice).getD 0 -
        exitPrice) < EPS
    · by_cases h3 : (!pyTruthyQ position.entryFillPrice ||
          pyAbs (position.entryFillPrice.getD 0 - exitPrice) < EPS) = true
      · simp [h1, h2, h3, insertedExitTypes] at het
      · by_cases h4 : pyTruthyN position.signalId = true
        · simp [h1, h2, h3, h4, insertedExitTypes_closeEffs] at het
          exact het
        · rcases hm : matchedSignalOf store now position with _ | m
          · simp [h1, h2, h3, eq_false_of_ne_true h4, hm,
              insertedExitTypes_manualEffs] at het
          · simp [h1, h2, h3, eq_false_of_ne_true h4, hm,
              insertedExitTypes_closeEffs] at het
            exact het
    · by_cases h4 : pyTruthyN position.signalId = true
      · simp [h1, h2, h4, insertedExitTypes_closeEffs] at het
        exact het
      · rcases hm : matchedSignalOf store now position with _ | m
        · simp [h1, h2, eq_false_of_ne_true h4, hm, insertedExitTypes_manualEffs] at het
        · simp [h1, h2, eq_false_of_ne_true h4, hm, insertedExitTypes_closeEffs] at het
          exact het

/-- With no live position reported and the orders answer non-anomalous,
check_position_closed reports the bracket as resolved with the exit
price from fills (whatever exit-type inference the resting orders
suggest). -/
lemma checkPositionClosed_resolved (ps : List HLPosition)
    (oo : Except String (List HLOrder)) (fills : Except String (List HFill))
    (coin tpOid slOid : String)
    (hps : ∀ q ∈ ps, q.szi = 0)
    (hna : ordersAnomalous oo tpOid slOid = false) :
    ∃ et, checkPositionClosed (.ok ps) oo fills coin tpOid slOid =
      { closed := true, anomaly := false, hasError := false,
        exitPrice := exitPriceFromFills fills coin, exitType := et } := by
  have hA : ps.any (fun q => q.coin == coin && decide (0 < pyAbs q.szi)) = false := by
    simp only [List.any_eq_false]
    intro q hq
    simp [hps q hq, pyAbs]
  have hB : ps.any (fun q => decide (0 < pyAbs q.szi)) = false := by
    simp only [List.any_eq_false]
    intro q hq
    simp [hps q hq, pyAbs]
  rcases ho : oo with e | os
  · exact ⟨"UNKNOWN", by simp [checkPositionClosed, hA, hB]⟩
  · have hna2 : (os.any (fun od => od.oid == tpOid) &&
        os.any (fun od => od.oid == slOid)) = false := by
      simpa [ordersAnomalous, ho] using hna
    refine ⟨if !os.any (fun od => od.oid == tpOid) && os.any (fun od => od.oid == slOid)
      then "TP" else if os.any (fun od => od.oid == tpOid) &&
        !os.any (fun od => od.oid == slOid) then "SL" else "UNKNOWN", ?_⟩
    simp [checkPositionClosed, hA, hB, hna2]

/-- C8: with no live position but both bracket order ids still resting,
the reconciliation treats the state as an anomaly — the check reports
closed=False/anomaly=True and check_position performs no effect (no
status change, no Trade, no cancel), so monitoring continues next tick;
and when the bracket has resolved but no exit price can be determined,
the position is marked needs_review and nothing else happens. -/
theorem c8_anomaly_and_needs_review (store : List StoreSignal) (now : ℤ)
    (position : MonPosition) (ps : List HLPosition) (os : List HLOrder)
    (fills : Except String (List HFill)) :
    ((∀ q ∈ ps, q.szi = 0) →
      os.any (fun od => od.oid == position.tpOrderId) = true →
      os.any (fun od => od.oid == position.slOrderId) = true →
      checkPositionClosed (.ok ps) (.ok os) fills (monCoinOf position)
          position.tpOrderId position.slOrderId =
        { closed := false, anomaly := true, hasError := false, exitPrice := none,
          exitType := "UNKNOWN" } ∧
      checkPosition store now position (.ok ps) (.ok os) fills = []) ∧
    ((∀ q ∈ ps, q.szi = 0) →
      ordersAnomalous (.ok os) position.tpOrderId position.slOrderId = false →
      exitPriceFromFills fills (monCoinOf position) = none →
      checkPosition store now position (.ok ps) (.ok os) fills =
        [.setStatus (position.id.getD 0) "needs_review"]) := by
  constructor
  · intro hps htp hsl
    have hA : ps.any (fun q => q.coin == monCoinOf position &&
        decide (0 < pyAbs q.szi)) = false := by
      simp only [List.any_eq_false]
      intro q hq
      simp [hps q hq, pyAbs]
    have hB : ps.any (fun q => decide (0 < pyAbs q.szi)) = false := by
      simp only [List.any_eq_false]
      intro q hq
      simp [hps q hq, pyAbs]
    have hcpc : checkPositionClosed (.ok ps) (.ok os) fills (monCoinOf position)
        position.tpOrderId position.slOrderId =
        { closed := false, anomaly := true, hasError := false, exitPrice := none,
          exitType := "UNKNOWN" } := by
      simp [checkPositionClosed, hA, hB, htp, hsl]
    exact ⟨hcpc, by simp [checkPosition, hcpc]⟩
  · intro hps hna hexit
    obtain ⟨et, hcpc⟩ := checkPositionClosed_resolved ps (.ok os) fills
      (monCoinOf position) position.tpOrderId position.slOrderId hps hna
    simp [checkPosition, hcpc, hexit]

/-- Position used by the C8 and C10 witnesses. -/
def c8Pos : MonPosition :=
  { id := some 12, userId := 4, signalId := some 3, entryOrderId := some "101",
    tpOrderId := "102", slOrderId := "103", symbol := "ADA/USDT", hlCoin := some "ADA",
    side := some "BUY", quantity := some 5, leverage := 1, entryFillPrice := some 2,
    avgEntryPrice := some 2, filledQuantity := some 5, fillCount := some 1,
    targetTp := 6, targetSl := 1, openedAt := some 0, firstFillAt := none }

/-- Witness for c8_anomaly_and_needs_review: both orders resting gives no
effects; no determinable exit price gives only needs_review. -/
theorem c8_anomaly_and_needs_review_witness :
    checkPosition [] 0 c8Pos (.ok []) (.ok [⟨"102", "ADA"⟩, ⟨"103", "ADA"⟩]) (.ok []) =
      [] ∧
    checkPosition [] 0 c8Pos (.ok []) (.ok []) (.ok []) =
      [.setStatus 12 "needs_review"] := by
  have h1 := c8_anomaly_and_needs_review [] 0 c8Pos []
    [⟨"102", "ADA"⟩, ⟨"103", "ADA"⟩] (.ok [])
  have h2 := c8_anomaly_and_needs_review [] 0 c8Pos [] [] (.ok [])
  exact ⟨(h1.1 (by simp) (by decide) (by decide)).2,
    h2.2 (by simp) (by decide) (by decide)⟩

/-- C10: the recorded exit type is determined solely by which of
target_tp / target_sl the exit price is strictly closer to (ties give
SL); the earlier inference from which bracket order still rests is
always overwritten — the whole reconciliation outcome is identical for
any two non-anomalous open-orders answers. -/
theorem c10_exit_type_by_proximity (store : List StoreSignal) (now : ℤ)
    (position : MonPosition) (ps : List HLPosition)
    (o1 o2 : Except String (List HLOrder)) (fills : Except String (List HFill)) (p : ℚ) :
    ((∀ q ∈ ps, q.szi = 0) →
      ordersAnomalous o1 position.tpOrderId position.slOrderId = false →
      ordersAnomalous o2 position.tpOrderId position.slOrderId = false →
      checkPosition store now position (.ok ps) o1 fills =
        checkPosition store now position (.ok ps) o2 fills) ∧
    ((∀ q ∈ ps, q.szi = 0) →
      ordersAnomalous o1 position.tpOrderId position.slOrderId = false →
      exitPriceFromFills fills (monCoinOf position) = some p →
      ∀ et ∈ insertedExitTypes (checkPosition store now position (.ok ps) o1 fills),
        et = proximityExitType p position.targetTp position.targetSl) ∧
    (pyAbs (p - position.targetTp) = pyAbs (p - position.targetSl) →
      proximityExitType p position.targetTp position.targetSl = "SL") := by
  refine ⟨?_, ?_, ?_⟩
  · intro hps h1 h2
    obtain ⟨et1, hc1⟩ := checkPositionClosed_resolved ps o1 fills (monCoinOf position)
      position.tpOrderId position.slOrderId hps h1
    obtain ⟨et2, hc2⟩ := checkPositionClosed_resolved ps o2 fills (monCoinOf position)
      position.tpOrderId position.slOrderId hps h2
    simp [checkPosition, hc1, hc2]
  · intro hps h1 hexit et het
    obtain ⟨et1, hc1⟩ := checkPositionClosed_resolved ps o1 fills (monCoinOf position)
      position.tpOrderId position.slOrderId hps h1
    rw [checkPosition] at het
    simp only [hc1, hexit, Bool.not_true, Bool.false_eq_true, if_false,
      insertedExitTypes, List.filterMap_append, List.mem_append] at het
    rcases het with (hin | hin) | hin
    · exact insertedExitTypes_recordTradeClose store now position p _ _ et hin
    · exfalso
      revert hin
      split <;> simp
    · exfalso
      revert hin
      simp
  · intro htie
    simp [proximityExitType, htie]

/-- Witness for c10_exit_type_by_proximity: with a last fill at 5 the
recorded type is TP (closer to target 6 than to stop 1) whichever order
still rests. -/
theorem c10_exit_type_by_proximity_witness :
    checkPosition [⟨3, some "s3", "ADA/USDT", "BUY", 0⟩] 0 c8Pos (.ok [])
        (.ok [⟨"103", "ADA"⟩]) (.ok [⟨"ADA", 5, 5, 10, 15⟩]) =
      checkPosition [⟨3, some "s3", "ADA/USDT", "BUY", 0⟩] 0 c8Pos (.ok [])
        (.error "orders query down") (.ok [⟨"ADA", 5, 5, 10, 15⟩]) ∧
    proximityExitType 5 c8Pos.targetTp c8Pos.targetSl = "TP" := by
  have h := c10_exit_type_by_proximity [⟨3, some "s3", "ADA/USDT", "BUY", 0⟩] 0 c8Pos []
    (.ok [⟨"103", "ADA"⟩]) (.error "orders query down") (.ok [⟨"ADA", 5, 5, 10, 15⟩]) 5
  exact ⟨h.1 (by simp) (by decide) (by decide),
    by norm_num [proximityExitType, c8Pos, pyAbs]⟩

/-!
## Trading-loop scheduler machine (C1)

Small-step model of the loop of hosted_trading_loop.py around the store:
run() alternates get_pending_signals_batched (fetch: spawn one work item
per unacknowledged delivery — the query's other conjuncts only shrink
this set and are modelled with the C4 embedding) with the execution of
the fetched items. Each in-flight execute_trade is a task advancing
through: started → acknowledge_signal (sets acknowledged+executed) →
safety gate (CHECK 0 duplicate lookup against the store, fail-open on a
database error, plus the exchange checks) → executor outcome (insert the
open_positions row on success, leave the flags untouched on failure).
Steps interleave tasks arbitrarily; dropTask models a crash of an
in-flight execution at its current point. The serial semantics only
fetches when no task is in flight (the program's await structure); the
concurrent semantics fetches at any time (concurrently invoked loops).
-/

structure LDelivery where
  id : ℕ
  signalId : ℕ
  userId : ℕ
  acknowledged : Bool
  executed : Bool
  failed : Bool
  deriving Repr, DecidableEq

/-- The (subscriber, signal) pair of a delivery — broadcast creates one
delivery per pair (follower_endpoints.py lines 310-322). -/
def pairOf (d : LDelivery) : ℕ × ℕ := (d.userId, d.signalId)

inductive TaskPc where
  | started
  | acked
  | checked (passed : Bool)
  | finished
  deriving Repr, DecidableEq

structure LTask where
  deliveryId : ℕ
  pc : TaskPc
  deriving Repr, DecidableEq

structure LoopState where
  deliveries : List LDelivery
  positions : List (ℕ × ℕ)
  tasks : List LTask
  deriving Repr, DecidableEq

inductive LStep where
  | fetch
  | runTask (i : ℕ) (dbOk exchangeClear execOk : Bool)
  | dropTask (i : ℕ)
  deriving Repr, DecidableEq

def findDelivery (ds : List LDelivery) (id : ℕ) : Option LDelivery :=
  ds.find? (fun d => d.id == id)

/-- acknowledge_signal (lines 244-254): set acknowledged and executed. -/
def setAcked (ds : List LDelivery) (id : ℕ) : List LDelivery :=
  ds.map (fun d => if d.id == id then { d with acknowledged := true, executed := true }
    else d)

/-- The safety gate at scheduler granularity: on a database error the
gate fails open (returns no-open, C9); otherwise CHECK 0 skips when the
store already holds a position for the pair, and the combined exchange
checks (exchangeClear, themselves fail-open) decide the rest. -/
def gatePasses (dbOk exchangeClear : Bool) (positions : List (ℕ × ℕ))
    (pr : ℕ × ℕ) : Bool :=
  if dbOk then (!positions.contains pr) && exchangeClear
  else true

/-- Advance the i-th in-flight task by one step. -/
def runTaskStep (s : LoopState) (i : ℕ) (dbOk exchangeClear execOk : Bool) : LoopState :=
  match s.tasks[i]? with
  | none => s
  | some t =>
    match findDelivery s.deliveries t.deliveryId with
    | none => s
    | some d =>
      match t.pc with
      | .started =>
          { s with deliveries := setAcked s.deliveries t.deliveryId,
                   tasks := s.tasks.set i { t with pc := .acked } }
      | .acked =>
          let pass := gatePasses dbOk exchangeClear s.positions (pairOf d)
          { s with tasks := s.tasks.set i { t with pc := .checked pass } }
      | .checked true =>
          if execOk then
            { s with positions := s.positions ++ [pairOf d],
                     tasks := s.tasks.set i { t with pc := .finished } }
          else
            { s with tasks := s.tasks.set i { t with pc := .finished } }
      | .checked false =>
          { s with tasks := s.tasks.set i { t with pc := .finished } }
      | .finished => s

/-- Spawn one task per unacknowledged delivery (the batched fetch). -/
def fetchTasks (s : LoopState) : LoopState :=
  { s with tasks := s.tasks ++
      ((s.deliveries.filter (fun d => !d.acknowledged)).map
        (fun d => { deliveryId := d.id, pc := .started })) }

/-- Concurrent semantics: a fetch may happen while tasks are in flight
(two loop instances polling independently). -/
def concStep (s : LoopState) : LStep → LoopState
  | .fetch => fetchTasks s
  | .runTask i dbOk exch execOk => runTaskStep s i dbOk exch execOk
  | .dropTask i => { s with tasks := s.tasks.eraseIdx i }

/-- Serial semantics: the single-process loop awaits the whole batch
before polling again — a fetch only happens with no task in flight. -/
def serialStep (s : LoopState) : LStep → LoopState
  | .fetch => if s.tasks.isEmpty then fetchTasks s else s
  | .runTask i dbOk exch execOk => runTaskStep s i dbOk exch execOk
  | .dropTask i => { s with tasks := s.tasks.eraseIdx i }

def runConc (s : LoopState) (sched : List LStep) : LoopState := sched.foldl concStep s

def runSerial (s : LoopState) (sched : List LStep) : LoopState := sched.foldl serialStep s

/-- One pending delivery for subscriber 42 on signal 7; empty store. -/
def c1Delivery : LDelivery :=
  { id := 1, signalId := 7, userId := 42, acknowledged := false, executed := false,
    failed := false }

def c1Init : LoopState := { deliveries := [c1Delivery], positions := [], tasks := [] }

/-- Two concurrent loop invocations both fetch the pending delivery
before either acknowledges; both then acknowledge (the second UPDATE is
a no-op), both pass the safety gate (the store holds no position yet for
the pair — no fail-open needed), and both executors succeed. -/
def c1Sched : List LStep :=
  [.fetch, .fetch,
   .runTask 0 true true true, .runTask 1 true true true,
   .runTask 0 true true true, .runTask 1 true true true,
   .runTask 0 true true true, .runTask 1 true true true]

/-- C1 counterexample: under concurrent invocation of the loop, two Open
Positions are created for the same (signal, subscriber) pair — nothing
between the batched fetch and the executor re-reads the acknowledged
flag, and the store duplicate check is not atomic with the insert. -/
theorem c1_concurrent_double_execution_counterexample :
    (runConc c1Init c1Sched).positions = [(42, 7), (42, 7)] ∧
    (runConc c1Init c1Sched).positions.count (42, 7) = 2 := by
  decide

/-- A member of `l.set i b` is `b` itself or an element of `l` sitting at
an index other than `i`. -/
lemma mem_set_elim {α : Type} {a b : α} {l : List α} {i : ℕ} (h : a ∈ l.set i b) :
    a = b ∨ ∃ j, j ≠ i ∧ l[j]? = some a := by
  induction l generalizing i with
  | nil => exact absurd h (List.not_mem_nil a)
  | cons x xs ih =>
    cases i with
    | zero =>
      rw [List.set_cons_zero] at h
      rcases List.mem_cons.mp h with h1 | h1
      · exact Or.inl h1
      · rcases List.getElem?_of_mem h1 with ⟨j, hj⟩
        exact Or.inr ⟨j + 1, by simp, by simpa using hj⟩
    | succ n =>
      rw [List.set_cons_succ] at h
      rcases List.mem_cons.mp h with h1 | h1
      · exact Or.inr ⟨0, by simp, by simp [h1]⟩
      · rcases ih h1 with h2 | ⟨j, hj, hj2⟩
        · exact Or.inl h2
        · exact Or.inr ⟨j + 1, by simpa using hj, by simpa using hj2⟩

lemma length_of_getElem_some {α : Type} {l : List α} {i : ℕ} {a : α}
    (h : l[i]? = some a) : i < l.length := by
  by_contra hlen
  push_neg at hlen
  rw [List.getElem?_eq_none hlen] at h
  exact Option.noConfusion h

/-- In a list whose image under `f` has no duplicates, the index of an
element is determined by its image. -/
lemma map_nodup_index_inj {α β : Type} (f : α → β) {l : List α}
    (hn : (l.map f).Nodup) {i j : ℕ} {a b : α} (ha : l[i]? = some a)
    (hb : l[j]? = some b) (hf : f a = f b) : i = j := by
  by_contra hne
  have hma : (l.map f)[i]? = some (f a) := by rw [List.getElem?_map, ha]; rfl
  have hmb : (l.map f)[j]? = some (f b) := by rw [List.getElem?_map, hb]; rfl
  have hi : i < (l.map f).length := length_of_getElem_some hma
  have hj : j < (l.map f).length := length_of_getElem_some hmb
  rcases Nat.lt_or_ge i j with hlt | hge
  · exact List.nodup_iff_getElem?_ne_getElem?.mp hn i j hlt hj
      (by rw [hma, hmb, hf])
  · have hlt : j < i := Nat.lt_of_le_of_ne hge (fun h => hne h.symm)
    exact List.nodup_iff_getElem?_ne_getElem?.mp hn j i hlt hi
      (by rw [hma, hmb, hf])

/-- Replacing an element by one with the same `f`-image leaves the
`f`-image of the list unchanged. -/
lemma map_set_same {α β : Type} (f : α → β) {l : List α} {i : ℕ} {a b : α}
    (h : l[i]? = some a) (hf : f b = f a) : (l.set i b).map f = l.map f := by
  induction l generalizing i with
  | nil => rfl
  | cons x xs ih =>
    cases i with
    | zero =>
      rw [List.getElem?_cons_zero, Option.some_inj] at h
      subst h
      rw [List.set_cons_zero]
      simp [hf]
    | succ n =>
      rw [List.getElem?_cons_succ] at h
      rw [List.set_cons_succ]
      simp [ih h]

lemma setAcked_map_id (ds : List LDelivery) (n : ℕ) :
    (setAcked ds n).map LDelivery.id = ds.map LDelivery.id := by
  induction ds with
  | nil => rfl
  | cons d ds ih =>
    have hhead : (if (d.id == n) = true then
        { d with acknowledged := true, executed := true } else d).id = d.id := by
      split <;> rfl
    simp only [setAcked, List.map_cons] at ih ⊢
    rw [hhead, ih]

lemma setAcked_map_pair (ds : List LDelivery) (n : ℕ) :
    (setAcked ds n).map pairOf = ds.map pairOf := by
  induction ds with
  | nil => rfl
  | cons d ds ih =>
    have hhead : pairOf (if (d.id == n) = true then
        { d with acknowledged := true, executed := true } else d) = pairOf d := by
      split <;> rfl
    simp only [setAcked, List.map_cons] at ih ⊢
    rw [hhead, ih]

/-- Every member of `setAcked ds n` comes from a member of `ds` with the
same id and pair; it is either unchanged or has both flags set, and the
flags only ever go from unset to set. -/
lemma setAcked_decomp {ds : List LDelivery} {n : ℕ} {d' : LDelivery}
    (h : d' ∈ setAcked ds n) :
    ∃ d ∈ ds, d'.id = d.id ∧ pairOf d' = pairOf d ∧
      (d' = d ∨ (d'.acknowledged = true ∧ d'.executed = true)) ∧
      (d.acknowledged = true → d'.acknowledged = true) ∧
      (d.executed = true → d'.executed = true) := by
  rcases List.mem_map.mp h with ⟨d, hd, hEq⟩
  subst hEq
  by_cases hid : (d.id == n) = true
  · exact ⟨d, hd, by simp [hid], by simp [hid, pairOf], Or.inr (by simp [hid]),
      by simp [hid], by simp [hid]⟩
  · exact ⟨d, hd, by simp [hid], by simp [hid], Or.inl (by simp [hid]),
      by simp [hid], by simp [hid]⟩

/-- After `setAcked ds n`, the delivery with id `n` has both flags set. -/
lemma setAcked_self_flags {ds : List LDelivery} {n : ℕ} {d' : LDelivery}
    (h : d' ∈ setAcked ds n) (hid : d'.id = n) :
    d'.acknowledged = true ∧ d'.executed = true := by
  rcases List.mem_map.mp h with ⟨d, hd, hEq⟩
  subst hEq
  by_cases hb : (d.id == n) = true
  · simp [hb]
  · exact absurd (by simpa [hb] using hid) (by simpa using hb)

lemma findDelivery_some {ds : List LDelivery} {n : ℕ} {d : LDelivery}
    (h : findDelivery ds n = some d) : d ∈ ds ∧ d.id = n :=
  ⟨List.mem_of_find?_eq_some h, by simpa using List.find?_some h⟩

/-- Well-formedness of a loop state under the serial (single-scheduler)
discipline: delivery ids are distinct, broadcast created one delivery
per (subscriber, signal) pair, in-flight tasks reference distinct
deliveries, any task past its start has its delivery's flags set, no
position is recorded for an unacknowledged or still-in-flight delivery,
and the store holds at most one position per pair. -/
structure LoopWF (s : LoopState) : Prop where
  idsNodup : (s.deliveries.map LDelivery.id).Nodup
  pairsNodup : (s.deliveries.map pairOf).Nodup
  tasksNodup : (s.tasks.map LTask.deliveryId).Nodup
  flagsSet : ∀ t ∈ s.tasks, t.pc ≠ TaskPc.started →
    ∀ d ∈ s.deliveries, d.id = t.deliveryId →
      d.acknowledged = true ∧ d.executed = true
  unackedClean : ∀ d ∈ s.deliveries, d.acknowledged = false →
    s.positions.count (pairOf d) = 0
  inflightClean : ∀ t ∈ s.tasks, t.pc ≠ TaskPc.finished →
    ∀ d ∈ s.deliveries, d.id = t.deliveryId →
      s.positions.count (pairOf d) = 0
  posBound : ∀ pr, s.positions.count pr ≤ 1

/-- Moving a non-start, non-finished task to any non-start pc keeps the
state well-formed (positions and deliveries untouched). -/
lemma setPc_WF {s : LoopState} (hw : LoopWF s) {i : ℕ} {t : LTask} (pc' : TaskPc)
    (ht : s.tasks[i]? = some t) (hpcs : t.pc ≠ TaskPc.started)
    (hpcf : t.pc ≠ TaskPc.finished) :
    LoopWF { s with tasks := s.tasks.set i { t with pc := pc' } } := by
  refine ⟨hw.idsNodup, hw.pairsNodup, ?_, ?_, hw.unackedClean, ?_, hw.posBound⟩
  · rw [@map_set_same LTask ℕ LTask.deliveryId s.tasks i t { t with pc := pc' } ht rfl]
    exact hw.tasksNodup
  · intro t'' ht'' hp d' hd' hid'
    rcases mem_set_elim ht'' with rfl | ⟨j, _, hjh⟩
    · exact hw.flagsSet t (List.getElem?_mem ht) hpcs d' hd' hid'
    · exact hw.flagsSet t'' (List.getElem?_mem hjh) hp d' hd' hid'
  · intro t'' ht'' hp d' hd' hid'
    rcases mem_set_elim ht'' with rfl | ⟨j, _, hjh⟩
    · exact hw.inflightClean t (List.getElem?_mem ht) hpcf d' hd' hid'
    · exact hw.inflightClean t'' (List.getElem?_mem hjh) hp d' hd' hid'

/-- The acknowledge step (started → acked, flags written to the store)
preserves well-formedness. -/
lemma ackStep_WF {s : LoopState} (hw : LoopWF s) {i : ℕ} {t : LTask}
    (ht : s.tasks[i]? = some t) (hpc : t.pc = TaskPc.started) :
    LoopWF { s with deliveries := setAcked s.deliveries t.deliveryId,
                    tasks := s.tasks.set i { t with pc := TaskPc.acked } } := by
  have htmem : t ∈ s.tasks := List.getElem?_mem ht
  refine ⟨?_, ?_, ?_, ?_, ?_, ?_, hw.posBound⟩
  · rw [setAcked_map_id]
    exact hw.idsNodup
  · rw [setAcked_map_pair]
    exact hw.pairsNodup
  · rw [@map_set_same LTask ℕ LTask.deliveryId s.tasks i t { t with pc := TaskPc.acked } ht rfl]
    exact hw.tasksNodup
  · intro t'' ht'' hp d' hd' hid'
    rcases mem_set_elim ht'' with rfl | ⟨j, _, hjh⟩
    · exact setAcked_self_flags hd' hid'
    · rcases setAcked_decomp hd' with ⟨dd, hddmem, hidEq, _, hflag, _, _⟩
      rcases hflag with rfl | hfl
      · exact hw.flagsSet t'' (List.getElem?_mem hjh) hp d' hddmem hid'
      · exact hfl
  · intro d' hd' hack
    rcases setAcked_decomp hd' with ⟨dd, hddmem, _, hprEq, hflag, _, _⟩
    rcases hflag with rfl | hfl
    · exact hw.unackedClean d' hddmem hack
    · rw [hfl.1] at hack
      exact Bool.noConfusion hack
  · intro t'' ht'' hp d' hd' hid'
    rcases setAcked_decomp hd' with ⟨dd, hddmem, hidEq, hprEq, _, _, _⟩
    have hgoal : ∀ tz ∈ s.tasks, tz.pc ≠ TaskPc.finished → dd.id = tz.deliveryId →
        ({ s with deliveries := setAcked s.deliveries t.deliveryId,
                  tasks := s.tasks.set i { t with pc := TaskPc.acked } } :
          LoopState).positions.count (pairOf d') = 0 := by
      intro tz htz hpz hidz
      show s.positions.count (pairOf d') = 0
      rw [hprEq]
      exact hw.inflightClean tz htz hpz dd hddmem hidz
    rcases mem_set_elim ht'' with rfl | ⟨j, _, hjh⟩
    · exact hgoal t htmem (by simp [hpc]) (by rw [← hidEq]; exact hid')
    · exact hgoal t'' (List.getElem?_mem hjh) hp (by rw [← hidEq]; exact hid')

/-- The successful-insert step (checked-passed → finished, one position
appended) preserves well-formedness. -/
lemma insertStep_WF {s : LoopState} (hw : LoopWF s) {i : ℕ} {t : LTask}
    {d : LDelivery} (ht : s.tasks[i]? = some t) (hpc : t.pc = TaskPc.checked true)
    (hdmem : d ∈ s.deliveries) (hdid : d.id = t.deliveryId) :
    LoopWF { s with positions := s.positions ++ [pairOf d],
                    tasks := s.tasks.set i { t with pc := TaskPc.finished } } := by
  have htmem : t ∈ s.tasks := List.getElem?_mem ht
  have hdack : d.acknowledged = true :=
    (hw.flagsSet t htmem (by simp [hpc]) d hdmem hdid).1
  refine ⟨hw.idsNodup, hw.pairsNodup, ?_, ?_, ?_, ?_, ?_⟩
  · rw [@map_set_same LTask ℕ LTask.deliveryId s.tasks i t { t with pc := TaskPc.finished } ht rfl]
    exact hw.tasksNodup
  · intro t'' ht'' hp d' hd' hid'
    rcases mem_set_elim ht'' with rfl | ⟨j, _, hjh⟩
    · exact hw.flagsSet t htmem (by simp [hpc]) d' hd' hid'
    · exact hw.flagsSet t'' (List.getElem?_mem hjh) hp d' hd' hid'
  · intro d' hd' hack
    have hne : pairOf d' ≠ pairOf d := by
      intro hpr
      have hde : d' = d := List.inj_on_of_nodup_map hw.pairsNodup hd' hdmem hpr
      rw [hde, hdack] at hack
      exact Bool.noConfusion hack
    have h0 := hw.unackedClean d' hd' hack
    show (s.positions ++ [pairOf d]).count (pairOf d') = 0
    simp [List.count_append, List.count_cons, h0, Ne.symm hne]
  · intro t'' ht'' hp d' hd' hid'
    rcases mem_set_elim ht'' with rfl | ⟨j, hji, hjh⟩
    · exact absurd rfl hp
    · have ht''mem : t'' ∈ s.tasks := List.getElem?_mem hjh
      have h0 := hw.inflightClean t'' ht''mem hp d' hd' hid'
      have hne : pairOf d' ≠ pairOf d := by
        intro hpr
        have hde : d' = d := List.inj_on_of_nodup_map hw.pairsNodup hd' hdmem hpr
        have hfid : t''.deliveryId = t.deliveryId := by
          rw [← hid', hde, hdid]
        exact hji (map_nodup_index_inj LTask.deliveryId hw.tasksNodup hjh ht hfid)
      show (s.positions ++ [pairOf d]).count (pairOf d') = 0
      simp [List.count_append, List.count_cons, h0, Ne.symm hne]
  · intro pr
    by_cases hpr : pr = pairOf d
    · have h0 := hw.inflightClean t htmem (by simp [hpc]) d hdmem hdid
      show (s.positions ++ [pairOf d]).count pr ≤ 1
      simp [List.count_append, List.count_cons, hpr, h0]
    · have h1 := hw.posBound pr
      show (s.positions ++ [pairOf d]).count pr ≤ 1
      simpa [List.count_append, List.count_cons, Ne.symm hpr] using h1

/-- The batched fetch from an idle state (no task in flight) preserves
well-formedness: it spawns one started task per unacknowledged delivery. -/
lemma fetch_WF {s : LoopState} (hw : LoopWF s) (hnil : s.tasks = []) :
    LoopWF (fetchTasks s) := by
  refine ⟨hw.idsNodup, hw.pairsNodup, ?_, ?_, hw.unackedClean, ?_, hw.posBound⟩
  · have hsub : ((s.deliveries.filter (fun d => !d.acknowledged)).map
        LDelivery.id).Sublist (s.deliveries.map LDelivery.id) :=
      (List.filter_sublist _).map _
    have hnd := hw.idsNodup.sublist hsub
    show ((s.tasks ++ _).map LTask.deliveryId).Nodup
    rw [hnil]
    simpa [List.map_map, Function.comp] using hnd
  · intro t ht hpc
    have ht' : t ∈ (s.deliveries.filter (fun d => !d.acknowledged)).map
        (fun d => ({ deliveryId := d.id, pc := TaskPc.started } : LTask)) := by
      have : t ∈ s.tasks ++ (s.deliveries.filter (fun d => !d.acknowledged)).map
          (fun d => ({ deliveryId := d.id, pc := TaskPc.started } : LTask)) := ht
      rw [hnil] at this
      simpa using this
    rcases List.mem_map.mp ht' with ⟨d0, _, hEq⟩
    rw [← hEq] at hpc
    exact absurd rfl hpc
  · intro t ht hpc d hd hid
    have ht' : t ∈ (s.deliveries.filter (fun d => !d.acknowledged)).map
        (fun d => ({ deliveryId := d.id, pc := TaskPc.started } : LTask)) := by
      have : t ∈ s.tasks ++ (s.deliveries.filter (fun d => !d.acknowledged)).map
          (fun d => ({ deliveryId := d.id, pc := TaskPc.started } : LTask)) := ht
      rw [hnil] at this
      simpa using this
    rcases List.mem_map.mp ht' with ⟨d0, hd0, hEq⟩
    have hd0' := List.mem_filter.mp hd0
    have hid0 : d.id = d0.id := by rw [hid, ← hEq]
    have hdd : d = d0 := List.inj_on_of_nodup_map hw.idsNodup hd hd0'.1 hid0
    have hack : d.acknowledged = false := by
      rw [hdd]
      simpa using hd0'.2
    exact hw.unackedClean d hd hack

/-- One serial step preserves well-formedness. -/
lemma serialStep_WF {s : LoopState} (hw : LoopWF s) (st : LStep) :
    LoopWF (serialStep s st) := by
  cases st with
  | fetch =>
    by_cases hE : s.tasks.isEmpty = true
    · have hstep : serialStep s LStep.fetch = fetchTasks s := by
        simp [serialStep, hE]
      rw [hstep]
      exact fetch_WF hw (List.isEmpty_iff.mp hE)
    · have hstep : serialStep s LStep.fetch = s := by
        simp [serialStep, hE]
      rw [hstep]
      exact hw
  | runTask i dbOk exch execOk =>
    show LoopWF (runTaskStep s i dbOk exch execOk)
    cases ht : s.tasks[i]? with
    | none =>
      have hstep : runTaskStep s i dbOk exch execOk = s := by
        simp [runTaskStep, ht]
      rw [hstep]
      exact hw
    | some t =>
      cases hfd : findDelivery s.deliveries t.deliveryId with
      | none =>
        have hstep : runTaskStep s i dbOk exch execOk = s := by
          simp [runTaskStep, ht, hfd]
        rw [hstep]
        exact hw
      | some d =>
        obtain ⟨hdmem, hdid⟩ := findDelivery_some hfd
        cases hpc : t.pc with
        | started =>
          have hstep : runTaskStep s i dbOk exch execOk =
              { s with deliveries := setAcked s.deliveries t.deliveryId,
                       tasks := s.tasks.set i { t with pc := TaskPc.acked } } := by
            simp [runTaskStep, ht, hfd, hpc]
          rw [hstep]
          exact ackStep_WF hw ht hpc
        | acked =>
          have hstep : runTaskStep s i dbOk exch execOk =
              { s with tasks := s.tasks.set i { t with pc := TaskPc.checked (gatePasses dbOk exch s.positions (pairOf d)) } } := by
            simp [runTaskStep, ht, hfd, hpc]
          rw [hstep]
          exact setPc_WF hw _ ht (by simp [hpc]) (by simp [hpc])
        | checked passed =>
          cases passed with
          | true =>
            cases execOk with
            | true =>
              have hstep : runTaskStep s i dbOk exch true =
                  { s with positions := s.positions ++ [pairOf d],
                           tasks := s.tasks.set i { t with pc := TaskPc.finished } } := by
                simp [runTaskStep, ht, hfd, hpc]
              rw [hstep]
              exact insertStep_WF hw ht hpc hdmem hdid
            | false =>
              have hstep : runTaskStep s i dbOk exch false =
                  { s with tasks := s.tasks.set i { t with pc := TaskPc.finished } } := by
                simp [runTaskStep, ht, hfd, hpc]
              rw [hstep]
              exact setPc_WF hw _ ht (by simp [hpc]) (by simp [hpc])
          | false =>
            have hstep : runTaskStep s i dbOk exch execOk =
                { s with tasks := s.tasks.set i { t with pc := TaskPc.finished } } := by
              simp [runTaskStep, ht, hfd, hpc]
            rw [hstep]
            exact setPc_WF hw _ ht (by simp [hpc]) (by simp [hpc])
        | finished =>
          have hstep : runTaskStep s i dbOk exch execOk = s := by
            simp [runTaskStep, ht, hfd, hpc]
          rw [hstep]
          exact hw
  | dropTask i =>
    show LoopWF { s with tasks := s.tasks.eraseIdx i }
    have hsub : (s.tasks.eraseIdx i).Sublist s.tasks := List.eraseIdx_sublist s.tasks i
    refine ⟨hw.idsNodup, hw.pairsNodup, ?_, ?_, hw.unackedClean, ?_, hw.posBound⟩
    · exact hw.tasksNodup.sublist (hsub.map _)
    · intro t ht hpc d hd hid
      exact hw.flagsSet t (hsub.mem ht) hpc d hd hid
    · intro t ht hpc d hd hid
      exact hw.inflightClean t (hsub.mem ht) hpc d hd hid

lemma runSerial_WF {s : LoopState} (hw : LoopWF s) (sched : List LStep) :
    LoopWF (runSerial s sched) := by
  induction sched generalizing s with
  | nil => exact hw
  | cons st sched ih => exact ih (serialStep_WF hw st)

/-- The deliveries store only changes via `setAcked`, so acknowledged and
executed flags are never reset by any step. -/
lemma runTaskStep_deliveries (s : LoopState) (i : ℕ) (a b c : Bool) :
    (runTaskStep s i a b c).deliveries = s.deliveries ∨
    ∃ n, (runTaskStep s i a b c).deliveries = setAcked s.deliveries n := by
  cases h1 : s.tasks[i]? with
  | none => exact Or.inl (by simp [runTaskStep, h1])
  | some t =>
    cases h2 : findDelivery s.deliveries t.deliveryId with
    | none => exact Or.inl (by simp [runTaskStep, h1, h2])
    | some d =>
      cases h3 : t.pc with
      | started => exact Or.inr ⟨t.deliveryId, by simp [runTaskStep, h1, h2, h3]⟩
      | acked => exact Or.inl (by simp [runTaskStep, h1, h2, h3])
      | checked p =>
        cases p <;> cases c <;> exact Or.inl (by simp [runTaskStep, h1, h2, h3])
      | finished => exact Or.inl (by simp [runTaskStep, h1, h2, h3])

lemma serialStep_deliveries_mono (s : LoopState) (st : LStep) :
    ∀ d' ∈ (serialStep s st).deliveries, ∃ d ∈ s.deliveries, d'.id = d.id ∧
      (d.acknowledged = true → d'.acknowledged = true) ∧
      (d.executed = true → d'.executed = true) := by
  intro d' hd'
  cases st with
  | fetch =>
    by_cases hE : s.tasks.isEmpty = true
    · exact ⟨d', by simpa [serialStep, hE, fetchTasks] using hd', rfl,
        fun h => h, fun h => h⟩
    · exact ⟨d', by simpa [serialStep, hE] using hd', rfl, fun h => h, fun h => h⟩
  | runTask i a b c =>
    have hd2 : d' ∈ (runTaskStep s i a b c).deliveries := hd'
    rcases runTaskStep_deliveries s i a b c with hEq | ⟨n, hEq⟩
    · rw [hEq] at hd2
      exact ⟨d', hd2, rfl, fun h => h, fun h => h⟩
    · rw [hEq] at hd2
      rcases setAcked_decomp hd2 with ⟨dd, hdd, hid, _, _, hA, hE2⟩
      exact ⟨dd, hdd, hid, hA, hE2⟩
  | dropTask i => exact ⟨d', hd', rfl, fun h => h, fun h => h⟩

lemma runSerial_deliveries_mono (s : LoopState) (sched : List LStep) :
    ∀ d' ∈ (runSerial s sched).deliveries, ∃ d ∈ s.deliveries, d'.id = d.id ∧
      (d.acknowledged = true → d'.acknowledged = true) ∧
      (d.executed = true → d'.executed = true) := by
  induction sched generalizing s with
  | nil => exact fun d' hd' => ⟨d', hd', rfl, fun h => h, fun h => h⟩
  | cons st sched ih =>
    intro d' hd'
    rcases ih (serialStep s st) d' hd' with ⟨dm, hdm, hid1, hA1, hE1⟩
    rcases serialStep_deliveries_mono s st dm hdm with ⟨d, hd, hid2, hA2, hE2⟩
    exact ⟨d, hd, hid1.trans hid2, fun h => hA1 (hA2 h), fun h => hE1 (hE2 h)⟩

/-- C1 (amended): under the serial single-scheduler operation of the
trading loop — the poll only fetches when no execution is in flight, and
a crash may drop an in-flight execution at any point, including between
the ack-write and the executor start — every schedule run from a
well-formed state preserves all three guarantees: at most one Open
Position row ever exists per (subscriber, signal) pair; any in-flight
execution that has progressed past its start (in particular one at the
safety check or at order placement) has its delivery's acknowledged and
executed flags already written to the store; and the flags are never
reset, so an executor failure leaves them set and there is no automatic
re-delivery. The concurrency half of the original claim is refuted
separately: two concurrently polling loop instances can each create a
position for the same pair. -/
theorem c1_serial_at_most_once (s₀ : LoopState) (hw : LoopWF s₀)
    (sched : List LStep) :
    (∀ pr, (runSerial s₀ sched).positions.count pr ≤ 1) ∧
    (∀ t ∈ (runSerial s₀ sched).tasks, t.pc ≠ TaskPc.started →
      ∀ d ∈ (runSerial s₀ sched).deliveries, d.id = t.deliveryId →
        d.acknowledged = true ∧ d.executed = true) ∧
    (∀ d' ∈ (runSerial s₀ sched).deliveries, ∃ d ∈ s₀.deliveries,
      d'.id = d.id ∧ (d.acknowledged = true → d'.acknowledged = true) ∧
      (d.executed = true → d'.executed = true)) :=
  ⟨(runSerial_WF hw sched).posBound, (runSerial_WF hw sched).flagsSet,
    runSerial_deliveries_mono s₀ sched⟩

/-- A serial schedule for the single pending delivery: fetch, run the
task to completion, poll again (the second fetch spawns nothing — the
delivery is acknowledged), and poke the finished task once more. -/
def c1SerialSched : List LStep :=
  [LStep.fetch, LStep.runTask 0 true true true, LStep.runTask 0 true true true,
   LStep.runTask 0 true true true, LStep.fetch, LStep.runTask 0 true true true]

theorem c1_serial_at_most_once_witness :
    (runSerial c1Init c1SerialSched).positions = [(42, 7)] ∧
    (runSerial c1Init c1SerialSched).positions.count (42, 7) ≤ 1 := by
  have hw : LoopWF c1Init :=
    ⟨by decide, by decide, by decide, by decide, by decide, by decide,
      fun pr => by simp [c1Init]⟩
  exact ⟨by decide, (c1_serial_at_most_once c1Init hw c1SerialSched).1 (42, 7)⟩

end NikeRocket
